import Mathlib

/-!
Verification of the snakemq transport core (`snakemq/link.py`).

The `Link` class is shallowly embedded: each Python method becomes a Lean
function that threads the explicit `LinkState` record, returns the events
fired on the user callbacks, and returns `Option LinkErr` for the exception
(if any) that the method raises.  Python semantics of exceptions is kept:
mutations performed before a `raise` survive in the returned state.

OS-level effects (the actual socket system calls, `time.time()`, TLS
handshake steps) are inputs of the model: `send` receives the outcome of
the underlying `socket.send`, `ssl_handshake` the outcome of
`SSLSocket.do_handshake`, `_connect` the outcome of `connect_ex`, and the
current wall-clock time is passed as a parameter wherever the source calls
`time.time()`.

Representation choices:
* times (`time.time()` values, reconnect intervals) are integers - the
  code only ever adds, doubles and compares times, so any linearly
  ordered ring models the float arithmetic it performs exactly;
* an already-resolved remote address is a natural number
  (`socket.gethostbyname` resolution is modelled as the identity);
* a socket object is a record of an identity tag, its file descriptor and
  whether it is an `ssl.SSLSocket`;
* Python dicts are association lists with first-match lookup, in-place
  replacement on update and key-filtering deletion, which matches dict
  lookup/update/delete extensionally; Python sets are duplicate-free lists.
-/

/-- Wall-clock times and intervals (`time.time()` values). -/
abbrev Time := Int

/-- A resolved remote address (a `(host, port)` pair after
`socket.gethostbyname`), collapsed to a single numeric key. -/
abbrev Address := Nat

/-- A virtual connection identifier, the string built by
`Link.new_connection_id`. -/
abbrev ConnId := String

/-- A socket object: identity tag `sid`, file descriptor `fd` (its
`fileno()` while open), and whether it is an `ssl.SSLSocket`. -/
structure Sock where
  sid : Nat
  fd : Nat
  isSSL : Bool
deriving DecidableEq

/-- An epoll interest mask restricted to the two bits the Link uses
(`EPOLLIN`, `EPOLLOUT`). -/
structure Interest where
  epollin : Bool
  epollout : Bool
deriving DecidableEq

/-- A readiness-event mask delivered by `poll`. -/
structure Mask where
  epollin : Bool
  epollout : Bool
  epollerr : Bool
  epollhup : Bool
deriving DecidableEq

/-- Container for SSL configuration (class `SSLConfig`). -/
structure SSLConfig where
  keyfile : Option String
  certfile : Option String
  cert_reqs : Nat
  ssl_version : Nat
  ca_certs : Option String
deriving DecidableEq

/-- Key of the `_ssl_config` dict: an address (connectors) or a listening
socket (listeners). -/
abbrev SSLKey := Sum Address Sock

/-- The Python exceptions the embedded methods can raise. -/
inductive LinkErr where
  | keyError
  | valueError
  | socketError (code : Nat)
  | assertionError
  | pollerError
deriving DecidableEq

/-- An invocation of one of the user callbacks. -/
inductive Event where
  | on_connect (cid : ConnId)
  | on_disconnect (cid : ConnId)
  | on_recv (cid : ConnId) (data : List Nat)
  | on_ready_to_send (cid : ConnId)
deriving DecidableEq

/-- Linux `errno.EWOULDBLOCK`. -/
def EWOULDBLOCK : Nat := 11
/-- Linux `errno.ECONNRESET`. -/
def ECONNRESET : Nat := 104
/-- Linux `errno.ENOTCONN`. -/
def ENOTCONN : Nat := 107
/-- Linux `errno.ESHUTDOWN`. -/
def ESHUTDOWN : Nat := 108
/-- Linux `errno.ECONNABORTED`. -/
def ECONNABORTED : Nat := 103
/-- Linux `errno.EPIPE`. -/
def EPIPE : Nat := 32
/-- Linux `errno.EBADF`. -/
def EBADF : Nat := 9
/-- Linux `errno.EISCONN`. -/
def EISCONN : Nat := 106
/-- Linux `errno.EINPROGRESS`. -/
def EINPROGRESS : Nat := 115

/-- The connection-fatal errno set used by `Link.send` and
`Link.handle_recv`. -/
def fatalErrs : List Nat := [ECONNRESET, ENOTCONN, ESHUTDOWN, ECONNABORTED, EPIPE, EBADF]

/-- Constant `SSL_HANDSHAKE_IN_PROGRESS`. -/
def SSL_HANDSHAKE_IN_PROGRESS : Nat := 0
/-- Constant `SSL_HANDSHAKE_DONE`. -/
def SSL_HANDSHAKE_DONE : Nat := 1
/-- Constant `SSL_HANDSHAKE_FAILED`. -/
def SSL_HANDSHAKE_FAILED : Nat := 2

/-- Module constant `RECONNECT_INTERVAL` (seconds). -/
def RECONNECT_INTERVAL : Time := 3

/-- Dict lookup `m[k]` / `m.get(k)`: first binding of the key. -/
def getk {α β : Type} [DecidableEq α] : List (α × β) → α → Option β
  | [], _ => none
  | p :: m, k => if p.1 = k then some p.2 else getk m k

/-- Dict update `m[k] = v`: replace the binding in place, or append. -/
def setk {α β : Type} [DecidableEq α] : List (α × β) → α → β → List (α × β)
  | [], k, v => [(k, v)]
  | p :: m, k, v => if p.1 = k then (k, v) :: m else p :: setk m k v

/-- Dict deletion `del m[k]` / `m.pop(k)`: drop every binding of the key. -/
def delk {α β : Type} [DecidableEq α] (m : List (α × β)) (k : α) : List (α × β) :=
  m.filter (fun p => decide (p.1 ≠ k))

/-- Dict membership `k in m`. -/
def hask {α β : Type} [DecidableEq α] (m : List (α × β)) (k : α) : Bool :=
  (getk m k).isSome

/-- Set insertion `s.add(x)`. -/
def addElem {α : Type} [DecidableEq α] (l : List α) (x : α) : List α :=
  if x ∈ l then l else l ++ [x]

/-- Set removal `s.discard(x)` / `s.remove(x)` (the caller checks
membership where `remove` may raise). -/
def remElem {α : Type} [DecidableEq α] (l : List α) (x : α) : List α :=
  l.filter (fun y => decide (y ≠ x))

/-- The whole mutable state of a `Link` instance (`Link.__init__`). -/
structure LinkState where
  do_loop : Bool
  new_conn_id : Nat
  poll_bell_r : Nat
  poller : List (Nat × Interest)
  sock_by_fd : List (Nat × Sock)
  conn_by_sock : List (Sock × ConnId)
  sock_by_conn : List (ConnId × Sock)
  listen_socks : List (Address × Sock)
  listen_socks_filenos : List Nat
  connectors : List (Address × Option Sock)
  socks_addresses : List (Sock × Address)
  socks_waiting_to_connect : List Sock
  plannned_connections : List (Time × Address)
  reconnect_intervals : List (Address × Time)
  ssl_config : List (SSLKey × SSLConfig)
  in_ssl_handshake : List Sock
  reconnect_interval : Time
  next_sid : Nat
  next_fd : Nat
deriving DecidableEq

/-- Model of `Link.__init__`: empty registries; the poll bell's read end is
registered for `EPOLLIN`.  `next_sid`/`next_fd` are the model's fresh-name
supplies for newly created socket objects and their descriptors. -/
def linkInit (bellFd : Nat) : LinkState :=
  { do_loop := false
    new_conn_id := 0
    poll_bell_r := bellFd
    poller := [(bellFd, ⟨true, false⟩)]
    sock_by_fd := []
    conn_by_sock := []
    sock_by_conn := []
    listen_socks := []
    listen_socks_filenos := []
    connectors := []
    socks_addresses := []
    socks_waiting_to_connect := []
    plannned_connections := []
    reconnect_intervals := []
    ssl_config := []
    in_ssl_handshake := []
    reconnect_interval := RECONNECT_INTERVAL
    next_sid := 0
    next_fd := bellFd + 1 }

/-- Model of `epoll.modify(fd, mask)`: fails when the descriptor is not
registered. -/
def pollerModify (p : List (Nat × Interest)) (fd : Nat) (i : Interest) :
    Option (List (Nat × Interest)) :=
  if hask p fd then some (setk p fd i) else none

/-- Model of `epoll.unregister(fd)`: fails when the descriptor is not
registered. -/
def pollerUnregister (p : List (Nat × Interest)) (fd : Nat) :
    Option (List (Nat × Interest)) :=
  if hask p fd then some (delk p fd) else none

/-- Decimal digit character, i.e. what `"%i"` emits for one digit. -/
def natDigitChar (d : Nat) : Char := Char.ofNat (48 + d)

/-- Fuel-indexed decimal rendering of a natural number (most significant
digit first); `fuel > n` suffices. -/
def natDecimalAux : Nat → Nat → List Char
  | 0, _ => []
  | fuel + 1, n =>
    if n < 10 then [natDigitChar n]
    else natDecimalAux fuel (n / 10) ++ [natDigitChar (n % 10)]

/-- The decimal rendering `"%i" % n` of a nonnegative integer. -/
def natDecimal (n : Nat) : List Char := natDecimalAux (n + 1) n

namespace Link

/-- The string `"%ifd%i" % (counter, fileno)` built by
`Link.new_connection_id`. -/
def connIdStr (counter fd : Nat) : ConnId :=
  String.mk (natDecimal counter ++ 'f' :: 'd' :: natDecimal fd)

/-- Model of `Link.new_connection_id`: bump the counter, format the id, record the
two directions of the socket/id mapping. -/
def new_connection_id (st : LinkState) (sock : Sock) : LinkState × ConnId :=
  let n := st.new_conn_id + 1
  let cid := connIdStr n sock.fd
  ({ st with new_conn_id := n
             conn_by_sock := setk st.conn_by_sock sock cid
             sock_by_conn := setk st.sock_by_conn cid sock }, cid)

/-- Model of `Link.del_connection_id`: `pop` one direction (KeyError when the
socket is unknown), `del` the other (KeyError when the id is unknown). -/
def del_connection_id (st : LinkState) (sock : Sock) : LinkState × Option LinkErr :=
  match getk st.conn_by_sock sock with
  | none => (st, some .keyError)
  | some cid =>
    let st := { st with conn_by_sock := delk st.conn_by_sock sock }
    if hask st.sock_by_conn cid then
      ({ st with sock_by_conn := delk st.sock_by_conn cid }, none)
    else (st, some .keyError)

/-- Insertion of a `(when, address)` pair after any equal items, i.e.
`bisect.bisect` followed by `list.insert`, in the lexicographic tuple
order Python uses.  (This linear scan agrees with the binary search of
`bisect` on every sorted list, and the list is sorted at every reachable
state.) -/
def insort (item : Time × Address) : List (Time × Address) → List (Time × Address)
  | [] => [item]
  | p :: rest =>
    if item.1 < p.1 ∨ (item.1 = p.1 ∧ item.2 < p.2) then item :: p :: rest
    else p :: insort item rest

/-- Model of `Link.plan_connect`: sorted insertion of the planned connection. -/
def plan_connect (st : LinkState) (when : Time) (address : Address) : LinkState :=
  { st with plannned_connections := insort (when, address) st.plannned_connections }

/-- Model of `Link.handle_close`: unregister from the poller, drop the descriptor
from the socket table, shut down and close the socket (`ENOTCONN` from
`shutdown` is swallowed; the model treats shutdown/close as succeeding),
remove and notify the connection id (`on_disconnect` suppressed for an
SSL socket still inside its handshake), and schedule a reconnect when the
socket belonged to a connector address with a truthy interval. -/
def handle_close (now : Time) (st : LinkState) (sock : Sock) :
    LinkState × List Event × Option LinkErr :=
  match pollerUnregister st.poller sock.fd with
  | none => (st, [], some .pollerError)
  | some p =>
    let st := { st with poller := p }
    if hask st.sock_by_fd sock.fd then
      let st := { st with sock_by_fd := delk st.sock_by_fd sock.fd }
      match getk st.conn_by_sock sock with
      | some cid =>
        let r := del_connection_id st sock
        match r.2 with
        | some e => (r.1, [], some e)
        | none =>
          let st := r.1
          let evs := if sock.isSSL = false ∨ sock ∉ st.in_ssl_handshake
                     then [Event.on_disconnect cid] else []
          match getk st.socks_addresses sock with
          | some address =>
            let st := { st with socks_addresses := delk st.socks_addresses sock }
            match getk st.reconnect_intervals address with
            | some interval =>
              if interval ≠ 0 then (plan_connect st (now + interval) address, evs, none)
              else (st, evs, none)
            | none => (st, evs, none)
          | none => (st, evs, none)
      | none =>
        match getk st.socks_addresses sock with
        | some address =>
          let st := { st with socks_addresses := delk st.socks_addresses sock }
          match getk st.reconnect_intervals address with
          | some interval =>
            if interval ≠ 0 then (plan_connect st (now + interval) address, [], none)
            else (st, [], none)
          | none => (st, [], none)
        | none => (st, [], none)
    else (st, [], some .keyError)

end Link

/-- Outcome of the underlying `socket.send` call inside `Link.send`. -/
inductive SendOutcome where
  | sent (n : Nat)
  | sockErr (code : Nat)
deriving DecidableEq

/-- Outcome of one `SSLSocket.do_handshake` step. -/
inductive HSOutcome where
  | ok
  | wantRead
  | wantWrite
  | fail
deriving DecidableEq

/-- Outcome of `sock.connect_ex(address)` inside `Link._connect`: the
errno groups the source distinguishes, with the handshake outcome used
when the connect completes at once on an SSL socket. -/
inductive ConnectOutcome where
  | connected (hs : HSOutcome)
  | inProgress
  | hardError (code : Nat)
deriving DecidableEq

/-- Outcome of `sock.recv` inside `Link.handle_recv` (an empty fragment is
the orderly peer close). -/
inductive RecvOutcome where
  | fragment (d : List Nat)
  | recvErr (code : Nat)
deriving DecidableEq

/-- Outcome of `sock.accept` inside `Link.handle_accept`. -/
inductive AcceptOutcome where
  | acceptOk
  | acceptErr (code : Nat)
deriving DecidableEq

/-- The OS-level outcomes a single readiness event can consume. -/
structure IOOracle where
  hs : HSOutcome
  rcv : RecvOutcome
  acc : AcceptOutcome
  accHs : HSOutcome
deriving DecidableEq

namespace Link

/-- Model of `Link.send`: look up the socket (a `KeyError` for an unknown id is not
caught), attempt one non-blocking write, and on success raise the poller
interest to `EPOLLIN | EPOLLOUT`.  `EWOULDBLOCK` returns 0; a
connection-fatal errno runs `handle_close` and returns 0; any other
socket error is re-raised.  The returned `Option Nat` is the value `send`
returns to its caller (none when it raises). -/
def send (st : LinkState) (conn_id : ConnId) (outcome : SendOutcome) (now : Time) :
    LinkState × List Event × Option LinkErr × Option Nat :=
  match getk st.sock_by_conn conn_id with
  | none => (st, [], some .keyError, none)
  | some sock =>
    match outcome with
    | .sent n =>
      match pollerModify st.poller sock.fd ⟨true, true⟩ with
      | some p => ({ st with poller := p }, [], none, some n)
      | none => (st, [], some .pollerError, none)
    | .sockErr code =>
      if code = EWOULDBLOCK then (st, [], none, some 0)
      else if code ∈ fatalErrs then
        let r := handle_close now st sock
        match r.2.2 with
        | some e => (r.1, r.2.1, some e, none)
        | none => (r.1, r.2.1, none, some 0)
      else (st, [], some (.socketError code), none)

/-- Model of `Link.close`: delegate to `handle_close` (`KeyError` for an unknown
connection id). -/
def close (now : Time) (st : LinkState) (conn_id : ConnId) :
    LinkState × List Event × Option LinkErr :=
  match getk st.sock_by_conn conn_id with
  | none => (st, [], some .keyError)
  | some sock => handle_close now st sock

/-- Model of `Link.ssl_handshake`: one handshake step.  `WANT_READ`/`WANT_WRITE`
re-register interest and stay in progress; success leaves the handshaking
set and re-registers for read; any other error closes the socket.  The
final `Nat` is the `SSL_HANDSHAKE_*` result. -/
def ssl_handshake (now : Time) (st : LinkState) (sock : Sock) (outcome : HSOutcome) :
    LinkState × List Event × Option LinkErr × Nat :=
  match outcome with
  | .wantRead =>
    match pollerModify st.poller sock.fd ⟨true, false⟩ with
    | some p => ({ st with poller := p }, [], none, SSL_HANDSHAKE_IN_PROGRESS)
    | none => (st, [], some .pollerError, SSL_HANDSHAKE_IN_PROGRESS)
  | .wantWrite =>
    match pollerModify st.poller sock.fd ⟨false, true⟩ with
    | some p => ({ st with poller := p }, [], none, SSL_HANDSHAKE_IN_PROGRESS)
    | none => (st, [], some .pollerError, SSL_HANDSHAKE_IN_PROGRESS)
  | .ok =>
    if sock ∈ st.in_ssl_handshake then
      let st := { st with in_ssl_handshake := remElem st.in_ssl_handshake sock }
      match pollerModify st.poller sock.fd ⟨true, false⟩ with
      | some p => ({ st with poller := p }, [], none, SSL_HANDSHAKE_DONE)
      | none => (st, [], some .pollerError, SSL_HANDSHAKE_DONE)
    else (st, [], some .keyError, SSL_HANDSHAKE_DONE)
  | .fail =>
    let r := handle_close now st sock
    (r.1, r.2.1, r.2.2, SSL_HANDSHAKE_FAILED)

/-- Model of `Link.handle_connect`: the socket leaves the waiting-to-connect set
(`set.remove`, KeyError when absent); an SSL socket enters the handshaking
set and advances its handshake (aborting on failure); then a connection id
is assigned, interest drops to `EPOLLIN`, and `on_connect` fires unless an
SSL handshake is still pending. -/
def handle_connect (now : Time) (st : LinkState) (sock : Sock) (hs : HSOutcome) :
    LinkState × List Event × Option LinkErr :=
  if sock ∈ st.socks_waiting_to_connect then
    let st := { st with socks_waiting_to_connect := remElem st.socks_waiting_to_connect sock }
    if sock.isSSL then
      let st := { st with in_ssl_handshake := addElem st.in_ssl_handshake sock }
      let r := ssl_handshake now st sock hs
      match r.2.2.1 with
      | some e => (r.1, r.2.1, some e)
      | none =>
        if r.2.2.2 = SSL_HANDSHAKE_FAILED then (r.1, r.2.1, none)
        else
          let r2 := new_connection_id r.1 sock
          match pollerModify r2.1.poller sock.fd ⟨true, false⟩ with
          | some p =>
            let st3 := { r2.1 with poller := p }
            if r.2.2.2 = SSL_HANDSHAKE_DONE then (st3, r.2.1 ++ [Event.on_connect r2.2], none)
            else (st3, r.2.1, none)
          | none => (r2.1, r.2.1, some .pollerError)
    else
      let r2 := new_connection_id st sock
      match pollerModify r2.1.poller sock.fd ⟨true, false⟩ with
      | some p => ({ r2.1 with poller := p }, [Event.on_connect r2.2], none)
      | none => (r2.1, [], some .pollerError)
  else (st, [], some .keyError)

/-- Model of `Link._connect`: create a fresh non-blocking socket (SSL-wrapped when
the address has an SSL config), register it with the poller's default
mask, record it in the descriptor/connector/address tables and the
waiting-to-connect set, then issue `connect_ex`: immediate completion runs
`handle_connect`, `EINPROGRESS`/`EWOULDBLOCK` waits for the poller, any
other errno raises. -/
def connect_ (now : Time) (st : LinkState) (address : Address) (outcome : ConnectOutcome) :
    LinkState × List Event × Option LinkErr :=
  let isSSL := hask st.ssl_config (.inl address)
  let sock : Sock := ⟨st.next_sid, st.next_fd, isSSL⟩
  let st := { st with next_sid := st.next_sid + 1, next_fd := st.next_fd + 1 }
  let st := { st with poller := setk st.poller sock.fd ⟨true, true⟩ }
  let st := { st with sock_by_fd := setk st.sock_by_fd sock.fd sock
                      connectors := setk st.connectors address (some sock)
                      socks_addresses := setk st.socks_addresses sock address
                      socks_waiting_to_connect := addElem st.socks_waiting_to_connect sock }
  match outcome with
  | .connected hs => handle_connect now st sock hs
  | .inProgress => (st, [], none)
  | .hardError code => (st, [], some (.socketError code))

/-- Model of `Link.handle_accept`: a failed `accept` is logged and dropped; an
accepted socket is made non-blocking, SSL-wrapped when the listener has an
SSL config (entering the handshaking set and advancing the handshake),
registered for `EPOLLIN`, recorded in the descriptor table, given a
connection id, and `on_connect` fires unless an SSL handshake is still
pending. -/
def handle_accept (now : Time) (st : LinkState) (sock : Sock)
    (acc : AcceptOutcome) (hs : HSOutcome) :
    LinkState × List Event × Option LinkErr :=
  match acc with
  | .acceptErr _ => (st, [], none)
  | .acceptOk =>
    let hasCfg := hask st.ssl_config (.inr sock)
    let newsock : Sock := ⟨st.next_sid, st.next_fd, hasCfg⟩
    let st := { st with next_sid := st.next_sid + 1, next_fd := st.next_fd + 1 }
    if hasCfg then
      let st := { st with poller := setk st.poller newsock.fd ⟨true, false⟩
                          in_ssl_handshake := addElem st.in_ssl_handshake newsock
                          sock_by_fd := setk st.sock_by_fd newsock.fd newsock }
      let r := ssl_handshake now st newsock hs
      match r.2.2.1 with
      | some e => (r.1, r.2.1, some e)
      | none =>
        if r.2.2.2 = SSL_HANDSHAKE_FAILED then (r.1, r.2.1, none)
        else
          let r2 := new_connection_id r.1 newsock
          if r.2.2.2 = SSL_HANDSHAKE_DONE then (r2.1, r.2.1 ++ [Event.on_connect r2.2], none)
          else (r2.1, r.2.1, none)
    else
      let st := { st with poller := setk st.poller newsock.fd ⟨true, false⟩
                          sock_by_fd := setk st.sock_by_fd newsock.fd newsock }
      let r2 := new_connection_id st newsock
      (r2.1, [Event.on_connect r2.2], none)

/-- Model of `Link.handle_recv`: look up the connection id (`KeyError` when the
socket has none), read one block: a non-empty fragment fires `on_recv`, an
empty one is the orderly peer close, a connection-fatal errno closes, and
anything but `EWOULDBLOCK` is re-raised. -/
def handle_recv (now : Time) (st : LinkState) (sock : Sock) (outcome : RecvOutcome) :
    LinkState × List Event × Option LinkErr :=
  match getk st.conn_by_sock sock with
  | none => (st, [], some .keyError)
  | some conn_id =>
    match outcome with
    | .fragment d =>
      if d ≠ [] then (st, [Event.on_recv conn_id d], none)
      else handle_close now st sock
    | .recvErr code =>
      if code ∈ fatalErrs then handle_close now st sock
      else if code ≠ EWOULDBLOCK then (st, [], some (.socketError code))
      else (st, [], none)

/-- Model of `Link.handle_conn_refused`: drop the socket from the waiting set,
poller and descriptor table, close it, and schedule a reconnect at
`now + interval` (the interval lookup uses `[]` and raises when the
connector is gone). -/
def handle_conn_refused (now : Time) (st : LinkState) (sock : Sock) :
    LinkState × List Event × Option LinkErr :=
  if sock ∈ st.socks_waiting_to_connect then
    let st := { st with socks_waiting_to_connect := remElem st.socks_waiting_to_connect sock }
    match pollerUnregister st.poller sock.fd with
    | none => (st, [], some .pollerError)
    | some p =>
      let st := { st with poller := p }
      if hask st.sock_by_fd sock.fd then
        let st := { st with sock_by_fd := delk st.sock_by_fd sock.fd }
        match getk st.socks_addresses sock with
        | none => (st, [], some .keyError)
        | some address =>
          let st := { st with socks_addresses := delk st.socks_addresses sock }
          match getk st.reconnect_intervals address with
          | none => (st, [], some .keyError)
          | some interval => (plan_connect st (now + interval) address, [], none)
      else (st, [], some .keyError)
  else (st, [], some .keyError)

/-- Model of `Link.handle_ready_to_send`: drop the interest back to `EPOLLIN`, look
up the connection id and fire `on_ready_to_send`. -/
def handle_ready_to_send (st : LinkState) (sock : Sock) :
    LinkState × List Event × Option LinkErr :=
  match pollerModify st.poller sock.fd ⟨true, false⟩ with
  | none => (st, [], some .pollerError)
  | some p =>
    let st := { st with poller := p }
    match getk st.conn_by_sock sock with
    | none => (st, [], some .keyError)
    | some conn_id => (st, [Event.on_ready_to_send conn_id], none)

/-- Model of `Link.handle_sock_err`: connection refused while still connecting,
otherwise an ordinary close. -/
def handle_sock_err (now : Time) (st : LinkState) (sock : Sock) :
    LinkState × List Event × Option LinkErr :=
  if sock ∈ st.socks_waiting_to_connect then handle_conn_refused now st sock
  else handle_close now st sock

/-- Model of `Link.handle_sock_io`: `EPOLLOUT` finalizes a pending connect or
signals ready-to-send; `EPOLLIN` accepts on a listener or reads on a
connection. -/
def handle_sock_io (now : Time) (st : LinkState) (fd : Nat) (sock : Sock)
    (mask : Mask) (oracle : IOOracle) :
    LinkState × List Event × Option LinkErr :=
  let r :=
    if mask.epollout then
      if sock ∈ st.socks_waiting_to_connect then handle_connect now st sock oracle.hs
      else handle_ready_to_send st sock
    else (st, [], none)
  match r.2.2 with
  | some e => (r.1, r.2.1, some e)
  | none =>
    if mask.epollin then
      let r2 :=
        if fd ∈ r.1.listen_socks_filenos then handle_accept now r.1 sock oracle.acc oracle.accHs
        else handle_recv now r.1 sock oracle.rcv
      (r2.1, r.2.1 ++ r2.2.1, r2.2.2)
    else (r.1, r.2.1, none)

/-- Model of `Link.handle_fd_mask`: the poll bell's read end is flushed (its mask
must include `EPOLLIN`); an unknown descriptor - already discarded by the
Link - is skipped; error/hangup masks go to `handle_sock_err`; a socket
mid-handshake advances its handshake, firing the deferred `on_connect`
when it completes; anything else is ordinary socket IO. -/
def handle_fd_mask (now : Time) (st : LinkState) (fd : Nat) (mask : Mask)
    (oracle : IOOracle) : LinkState × List Event × Option LinkErr :=
  if fd = st.poll_bell_r then
    if mask.epollin then (st, [], none) else (st, [], some .assertionError)
  else
    match getk st.sock_by_fd fd with
    | none => (st, [], none)
    | some sock =>
      if mask.epollerr ∨ mask.epollhup then handle_sock_err now st sock
      else
        if sock ∈ st.in_ssl_handshake then
          let r := ssl_handshake now st sock oracle.hs
          match r.2.2.1 with
          | some e => (r.1, r.2.1, some e)
          | none =>
            if r.2.2.2 = SSL_HANDSHAKE_DONE then
              match getk r.1.conn_by_sock sock with
              | none => (r.1, r.2.1, some .keyError)
              | some cid => (r.1, r.2.1 ++ [Event.on_connect cid], none)
            else (r.1, r.2.1, none)
        else handle_sock_io now st fd sock mask oracle

/-- The scan loop of `Link.deal_connects`: walk the planned connections in
order, look up each address's interval (`[]`, so a missing connector
raises), attempt a connection for every entry with `when <= now` or
`when > now + interval * 2`, and stop at the first other entry.  Returns
the count of processed entries (`to_remove`).  The scan list is the plan
as of entry; connect outcomes that would synchronously re-enter the
planner (an immediate connect whose handshake fails at once) are the one
case where CPython's live-list iteration could diverge from this
snapshot. -/
def deal_connects_loop (now : Time) :
    LinkState → List (Time × Address) → List ConnectOutcome → Nat →
    LinkState × List Event × Option LinkErr × Nat
  | st, [], _, k => (st, [], none, k)
  | st, (when, address) :: rest, oracle, k =>
    match getk st.reconnect_intervals address with
    | none => (st, [], some .keyError, k)
    | some reconnect_interval =>
      if when ≤ now ∨ when > now + reconnect_interval * 2 then
        let r := connect_ now st address (oracle.headD .inProgress)
        match r.2.2 with
        | some e => (r.1, r.2.1, some e, k + 1)
        | none =>
          let r2 := deal_connects_loop now r.1 rest oracle.tail (k + 1)
          (r2.1, r.2.1 ++ r2.2.1, r2.2.2.1, r2.2.2.2)
      else (st, [], none, k)

/-- Model of `Link.deal_connects`: run the scan loop, then delete the processed
prefix (`del list[:to_remove]`); an exception from `_connect` propagates
before the deletion happens. -/
def deal_connects (now : Time) (st : LinkState) (oracle : List ConnectOutcome) :
    LinkState × List Event × Option LinkErr :=
  let r := deal_connects_loop now st st.plannned_connections oracle 0
  match r.2.2.1 with
  | some e => (r.1, r.2.1, some e)
  | none =>
    if r.2.2.2 ≠ 0 then
      ({ r.1 with plannned_connections := r.1.plannned_connections.drop r.2.2.2 }, r.2.1, none)
    else (r.1, r.2.1, none)

/-- Model of `Link.add_connector`: resolve the address (identity in the model),
store the SSL config when one is given - note this happens before the
duplicate check - then reject a duplicate address with `ValueError`, or
record the connector, its interval (the argument when truthy, else the
instance default) and an immediate planned connection.  The returned
`Option Address` is the connector address handed back to the caller. -/
def add_connector (st : LinkState) (address : Address) (reconnect_interval_arg : Option Time)
    (sslCfg : Option SSLConfig) : LinkState × Option LinkErr × Option Address :=
  let st := match sslCfg with
            | some cfg => { st with ssl_config := setk st.ssl_config (.inl address) cfg }
            | none => st
  if hask st.connectors address then (st, some .valueError, none)
  else
    let st := { st with connectors := setk st.connectors address none }
    let interval := match reconnect_interval_arg with
                    | some i => if i ≠ 0 then i else st.reconnect_interval
                    | none => st.reconnect_interval
    let st := { st with reconnect_intervals := setk st.reconnect_intervals address interval }
    (plan_connect st 0 address, none, some address)

/-- Model of `Link.del_connector`: `pop` the connector (KeyError when unknown),
discard its socket from the waiting set, delete its interval and SSL
config, and filter its address out of the planned connections.  Nothing
else is touched: a live or connecting socket stays in the descriptor
table and the poller. -/
def del_connector (st : LinkState) (address : Address) : LinkState × Option LinkErr :=
  match getk st.connectors address with
  | none => (st, some .keyError)
  | some sockOpt =>
    let st := { st with connectors := delk st.connectors address }
    let st := match sockOpt with
              | some sock =>
                { st with socks_waiting_to_connect := remElem st.socks_waiting_to_connect sock }
              | none => st
    if hask st.reconnect_intervals address then
      let st := { st with reconnect_intervals := delk st.reconnect_intervals address }
      let st := if hask st.ssl_config (.inl address)
                then { st with ssl_config := delk st.ssl_config (.inl address) }
                else st
      ({ st with plannned_connections :=
           st.plannned_connections.filter (fun p => decide (p.2 ≠ address)) }, none)
    else (st, some .keyError)

/-- Model of `Link.del_listener`: `pop` the listening socket (KeyError when
unknown), drop its fileno and descriptor entries and its SSL config, and
close it. -/
def del_listener (st : LinkState) (address : Address) : LinkState × Option LinkErr :=
  match getk st.listen_socks address with
  | none => (st, some .keyError)
  | some sock =>
    let st := { st with listen_socks := delk st.listen_socks address }
    if sock.fd ∈ st.listen_socks_filenos then
      let st := { st with listen_socks_filenos := remElem st.listen_socks_filenos sock.fd }
      if hask st.sock_by_fd sock.fd then
        let st := { st with sock_by_fd := delk st.sock_by_fd sock.fd }
        let st := if hask st.ssl_config (.inr sock)
                  then { st with ssl_config := delk st.ssl_config (.inr sock) }
                  else st
        (st, none)
      else (st, some .keyError)
    else (st, some .keyError)

end Link

namespace Link

/-- The `for address in list(self._connectors.keys()): self.del_connector(address)`
loop of `Link.cleanup`. -/
def del_connectors_all : LinkState → List Address → LinkState × Option LinkErr
  | st, [] => (st, none)
  | st, a :: rest =>
    let r := del_connector st a
    match r.2 with
    | some e => (r.1, some e)
    | none => del_connectors_all r.1 rest

/-- The `for address in list(self._listen_socks.keys()): self.del_listener(address)`
loop of `Link.cleanup`. -/
def del_listeners_all : LinkState → List Address → LinkState × Option LinkErr
  | st, [] => (st, none)
  | st, a :: rest =>
    let r := del_listener st a
    match r.2 with
    | some e => (r.1, some e)
    | none => del_listeners_all r.1 rest

/-- The `for sock in list(self._sock_by_fd.values()): self.handle_close(sock)`
loop of `Link.cleanup`. -/
def close_all (now : Time) : LinkState → List Sock → LinkState × List Event × Option LinkErr
  | st, [] => (st, [], none)
  | st, sock :: rest =>
    let r := handle_close now st sock
    match r.2.2 with
    | some e => (r.1, r.2.1, some e)
    | none =>
      let r2 := close_all now r.1 rest
      (r2.1, r.2.1 ++ r2.2.1, r2.2.2)

/-- The final block of `Link.cleanup`: twelve `assert len(...) == 0`
checks; the first failing one raises `AssertionError`. -/
def cleanup_asserts (st : LinkState) : Option LinkErr :=
  if st.sock_by_fd ≠ [] ∨ st.conn_by_sock ≠ [] ∨ st.sock_by_conn ≠ [] ∨
     st.listen_socks ≠ [] ∨ st.listen_socks_filenos ≠ [] ∨ st.connectors ≠ [] ∨
     st.socks_addresses ≠ [] ∨ st.socks_waiting_to_connect ≠ [] ∨
     st.plannned_connections ≠ [] ∨ st.reconnect_intervals ≠ [] ∨
     st.ssl_config ≠ [] ∨ st.in_ssl_handshake ≠ []
  then some .assertionError else none

/-- Model of `Link.cleanup`: assert the loop is stopped, close the poll bell
(OS-level, no registry effect), delete every connector and listener, close
every socket left in the descriptor table, then assert that every internal
registry ended up empty. -/
def cleanup (now : Time) (st : LinkState) : LinkState × List Event × Option LinkErr :=
  if st.do_loop then (st, [], some .assertionError)
  else
    let r1 := del_connectors_all st (st.connectors.map (fun p => p.1))
    match r1.2 with
    | some e => (r1.1, [], some e)
    | none =>
      let r2 := del_listeners_all r1.1 (r1.1.listen_socks.map (fun p => p.1))
      match r2.2 with
      | some e => (r2.1, [], some e)
      | none =>
        let r3 := close_all now r2.1 (r2.1.sock_by_fd.map (fun p => p.2))
        match r3.2.2 with
        | some e => (r3.1, r3.2.1, some e)
        | none => (r3.1, r3.2.1, cleanup_asserts r3.1)

end Link

/-! ### Association-list and set-list lemmas -/

theorem getk_setk_self {α β : Type} [DecidableEq α] (m : List (α × β)) (k : α) (v : β) :
    getk (setk m k v) k = some v := by
  induction m with
  | nil => simp [getk, setk]
  | cons p m ih =>
    by_cases h : p.1 = k <;> simp [getk, setk, h, ih]

theorem getk_setk_ne {α β : Type} [DecidableEq α] (m : List (α × β)) (k k' : α) (v : β)
    (h : k' ≠ k) : getk (setk m k v) k' = getk m k' := by
  induction m with
  | nil => simp [getk, setk, Ne.symm h]
  | cons p m ih =>
    by_cases hp : p.1 = k
    · simp [getk, setk, hp, Ne.symm h]
    · simp [getk, setk, hp, ih]

theorem getk_delk_self {α β : Type} [DecidableEq α] (m : List (α × β)) (k : α) :
    getk (delk m k) k = none := by
  induction m with
  | nil => simp [getk, delk]
  | cons p m ih =>
    by_cases h : p.1 = k <;> simp_all [getk, delk, List.filter]

theorem getk_delk_ne {α β : Type} [DecidableEq α] (m : List (α × β)) (k k' : α)
    (h : k' ≠ k) : getk (delk m k) k' = getk m k' := by
  induction m with
  | nil => simp [getk, delk]
  | cons p m ih =>
    by_cases hp : p.1 = k
    · have : p.1 ≠ k' := fun e => h (e.symm.trans hp)
      simp_all [getk, delk, List.filter]
    · by_cases hp' : p.1 = k' <;> simp_all [getk, delk, List.filter]

theorem hask_setk_self {α β : Type} [DecidableEq α] (m : List (α × β)) (k : α) (v : β) :
    hask (setk m k v) k = true := by
  simp [hask, getk_setk_self]

theorem hask_delk_self {α β : Type} [DecidableEq α] (m : List (α × β)) (k : α) :
    hask (delk m k) k = false := by
  simp [hask, getk_delk_self]

theorem mem_remElem_ne {α : Type} [DecidableEq α] (l : List α) (x y : α)
    (h : y ∈ remElem l x) : y ≠ x := by
  simp only [remElem, List.mem_filter, decide_eq_true_eq] at h
  exact h.2

theorem not_mem_remElem {α : Type} [DecidableEq α] (l : List α) (x : α) :
    x ∉ remElem l x := fun h => mem_remElem_ne l x x h rfl

/-! ### The lexicographic order on planned connections -/

/-- The (non-strict) lexicographic tuple order Python uses to keep
`_plannned_connections` sorted. -/
def planLe (p q : Time × Address) : Prop := p.1 < q.1 ∨ (p.1 = q.1 ∧ p.2 ≤ q.2)

instance : DecidableRel planLe := fun p q => by unfold planLe; infer_instance

/-- The planned-connections list is sorted in the lexicographic tuple
order. -/
def planSorted (l : List (Time × Address)) : Prop := List.Pairwise planLe l

instance planSortedDec : DecidablePred planSorted := fun l => by
  unfold planSorted; infer_instance

/-- The planned-connections list is sorted ascending by due time (the
reading of the spec). -/
def timeSorted (l : List (Time × Address)) : Prop :=
  List.Pairwise (fun p q => p.1 ≤ q.1) l

instance timeSortedDec : DecidablePred timeSorted := fun l => by
  unfold timeSorted; infer_instance

theorem planLe_trans {p q r : Time × Address} (h1 : planLe p q) (h2 : planLe q r) :
    planLe p r := by
  rcases h1 with h1 | ⟨e1, le1⟩ <;> rcases h2 with h2 | ⟨e2, le2⟩
  · exact Or.inl (lt_trans h1 h2)
  · exact Or.inl (e2 ▸ h1)
  · exact Or.inl (e1 ▸ h2)
  · exact Or.inr ⟨e1.trans e2, le1.trans le2⟩

theorem planLe_of_not_lt {p item : Time × Address}
    (h : ¬ (item.1 < p.1 ∨ (item.1 = p.1 ∧ item.2 < p.2))) : planLe p item := by
  push_neg at h
  obtain ⟨h1, h2⟩ := h
  rcases lt_or_eq_of_le h1 with hlt | heq
  · exact Or.inl hlt
  · exact Or.inr ⟨heq, h2 heq.symm⟩

theorem planLe_of_lt {p item : Time × Address}
    (h : item.1 < p.1 ∨ (item.1 = p.1 ∧ item.2 < p.2)) : planLe item p := by
  rcases h with h | ⟨e, hlt⟩
  · exact Or.inl h
  · exact Or.inr ⟨e, le_of_lt hlt⟩

theorem planSorted_of_timeSorted (l : List (Time × Address)) (h : planSorted l) :
    timeSorted l := by
  unfold planSorted timeSorted at *
  refine h.imp ?_
  intro p q hpq
  rcases hpq with hlt | ⟨he, _⟩
  · exact le_of_lt hlt
  · exact le_of_eq he

theorem mem_insort {item x : Time × Address} :
    ∀ {l : List (Time × Address)}, x ∈ Link.insort item l ↔ x = item ∨ x ∈ l := by
  intro l
  induction l with
  | nil => simp [Link.insort]
  | cons p rest ih =>
    by_cases h : item.1 < p.1 ∨ (item.1 = p.1 ∧ item.2 < p.2)
    · simp only [Link.insort, if_pos h, List.mem_cons]
    · simp only [Link.insort, if_neg h, List.mem_cons, ih]
      tauto

theorem self_mem_insort (item : Time × Address) (l : List (Time × Address)) :
    item ∈ Link.insort item l := mem_insort.mpr (Or.inl rfl)

theorem planSorted_insort (item : Time × Address) :
    ∀ (l : List (Time × Address)), planSorted l → planSorted (Link.insort item l)
  | [], _ => by
    simp only [Link.insort]
    exact List.pairwise_singleton planLe item
  | p :: rest, h => by
    have hp := (List.pairwise_cons.mp h).1
    have hrest := (List.pairwise_cons.mp h).2
    by_cases hc : item.1 < p.1 ∨ (item.1 = p.1 ∧ item.2 < p.2)
    · simp only [Link.insort, if_pos hc]
      refine List.pairwise_cons.mpr ⟨?_, h⟩
      intro x hx
      rcases List.mem_cons.mp hx with he | hm
      · exact he ▸ planLe_of_lt hc
      · exact planLe_trans (planLe_of_lt hc) (hp x hm)
    · simp only [Link.insort, if_neg hc]
      refine List.pairwise_cons.mpr ⟨?_, planSorted_insort item rest hrest⟩
      intro x hx
      rcases mem_insort.mp hx with he | hm
      · exact he ▸ planLe_of_not_lt hc
      · exact hp x hm

theorem planSorted_filter (l : List (Time × Address)) (f : Time × Address → Bool)
    (h : planSorted l) : planSorted (l.filter f) :=
  List.Pairwise.sublist (List.filter_sublist l) h

theorem planSorted_drop (l : List (Time × Address)) (n : Nat)
    (h : planSorted l) : planSorted (l.drop n) :=
  List.Pairwise.sublist (List.drop_sublist n l) h

/-! ### Injectivity of the connection-id format string -/

/-- Parse a decimal digit string back to the number it denotes. -/
def digitsVal (l : List Char) : Nat :=
  l.foldl (fun acc c => acc * 10 + (c.toNat - 48)) 0

theorem digitsVal_append_one (xs : List Char) (c : Char) :
    digitsVal (xs ++ [c]) = digitsVal xs * 10 + (c.toNat - 48) := by
  simp [digitsVal, List.foldl_append]

theorem natDigitChar_toNat (d : Nat) (h : d < 10) : (natDigitChar d).toNat = 48 + d := by
  interval_cases d <;> rfl

theorem natDigitChar_ne_f (d : Nat) (h : d < 10) : natDigitChar d ≠ 'f' := by
  interval_cases d <;> decide

theorem digitsVal_natDecimalAux :
    ∀ (fuel n : Nat), n < fuel → digitsVal (natDecimalAux fuel n) = n
  | 0, n, h => absurd h (Nat.not_lt_zero n)
  | fuel + 1, n, h => by
    by_cases h10 : n < 10
    · simp only [natDecimalAux, if_pos h10]
      show digitsVal ([] ++ [natDigitChar n]) = n
      rw [digitsVal_append_one, natDigitChar_toNat n h10]
      simp [digitsVal]
    · simp only [natDecimalAux, if_neg h10]
      have hn0 : 0 < n := Nat.pos_of_ne_zero (by omega)
      have hdiv : n / 10 < n := Nat.div_lt_self hn0 (by omega)
      have hfuel : n / 10 < fuel := by omega
      rw [digitsVal_append_one, digitsVal_natDecimalAux fuel (n / 10) hfuel,
          natDigitChar_toNat (n % 10) (Nat.mod_lt n (by omega))]
      omega

theorem digitsVal_natDecimal (n : Nat) : digitsVal (natDecimal n) = n :=
  digitsVal_natDecimalAux (n + 1) n (Nat.lt_succ_self n)

theorem natDecimal_inj {m n : Nat} (h : natDecimal m = natDecimal n) : m = n := by
  have hm := digitsVal_natDecimal m
  rw [h, digitsVal_natDecimal] at hm
  exact hm.symm

theorem natDecimalAux_digit :
    ∀ (fuel n : Nat) (c : Char), c ∈ natDecimalAux fuel n → ∃ d, d < 10 ∧ c = natDigitChar d
  | 0, _, c, h => absurd h (List.not_mem_nil c)
  | fuel + 1, n, c, h => by
    by_cases h10 : n < 10
    · simp only [natDecimalAux, if_pos h10, List.mem_singleton] at h
      exact ⟨n, h10, h⟩
    · simp only [natDecimalAux, if_neg h10, List.mem_append, List.mem_singleton] at h
      rcases h with h | h
      · exact natDecimalAux_digit fuel (n / 10) c h
      · exact ⟨n % 10, Nat.mod_lt n (by omega), h⟩

theorem f_not_mem_natDecimal (n : Nat) : 'f' ∉ natDecimal n := by
  intro h
  obtain ⟨d, hd, he⟩ := natDecimalAux_digit (n + 1) n 'f' h
  exact natDigitChar_ne_f d hd he.symm

theorem append_f_split :
    ∀ (xs xs' ys ys' : List Char), 'f' ∉ xs → 'f' ∉ xs' →
      xs ++ 'f' :: ys = xs' ++ 'f' :: ys' → xs = xs' ∧ ys = ys'
  | [], [], ys, ys', _, _, h => by simpa using h
  | [], a :: as, ys, ys', _, h2, h => by
    simp only [List.nil_append, List.cons_append, List.cons.injEq] at h
    exact absurd (List.mem_cons_self a as) (h.1 ▸ h2)
  | a :: as, [], ys, ys', h1, _, h => by
    simp only [List.nil_append, List.cons_append, List.cons.injEq] at h
    exact absurd (List.mem_cons_self a as) (h.1.symm ▸ h1)
  | a :: as, a' :: as', ys, ys', h1, h2, h => by
    simp only [List.cons_append, List.cons.injEq] at h
    have hrec := append_f_split as as' ys ys'
      (fun hm => h1 (List.mem_cons_of_mem a hm))
      (fun hm => h2 (List.mem_cons_of_mem a' hm)) h.2
    exact ⟨by rw [h.1, hrec.1], hrec.2⟩

theorem connIdStr_inj_counter {m n fd fd' : Nat} (h : m ≠ n) :
    Link.connIdStr m fd ≠ Link.connIdStr n fd' := by
  intro he
  unfold Link.connIdStr at he
  have hl : natDecimal m ++ 'f' :: 'd' :: natDecimal fd
      = natDecimal n ++ 'f' :: 'd' :: natDecimal fd' := by
    injection he
  have hsplit := append_f_split (natDecimal m) (natDecimal n)
    ('d' :: natDecimal fd) ('d' :: natDecimal fd')
    (f_not_mem_natDecimal m) (f_not_mem_natDecimal n) hl
  exact h (natDecimal_inj hsplit.1)

/-! ### Per-method preservation lemmas: planned-list sortedness and
connection-counter monotonicity -/

theorem new_connection_id_plan (st : LinkState) (sock : Sock) :
    (Link.new_connection_id st sock).1.plannned_connections = st.plannned_connections := rfl

theorem new_connection_id_counter (st : LinkState) (sock : Sock) :
    (Link.new_connection_id st sock).1.new_conn_id = st.new_conn_id + 1 := rfl

theorem del_connection_id_plan (st : LinkState) (sock : Sock) :
    (Link.del_connection_id st sock).1.plannned_connections = st.plannned_connections := by
  unfold Link.del_connection_id
  repeat' first
    | rfl
    | split
    | (dsimp only; split)

theorem del_connection_id_counter (st : LinkState) (sock : Sock) :
    (Link.del_connection_id st sock).1.new_conn_id = st.new_conn_id := by
  unfold Link.del_connection_id
  repeat' first
    | rfl
    | split
    | (dsimp only; split)

theorem plan_connect_plan (st : LinkState) (t : Time) (a : Address) :
    (Link.plan_connect st t a).plannned_connections
      = Link.insort (t, a) st.plannned_connections := rfl

theorem plan_connect_counter (st : LinkState) (t : Time) (a : Address) :
    (Link.plan_connect st t a).new_conn_id = st.new_conn_id := rfl

theorem handle_close_sorted (now : Time) (st : LinkState) (sock : Sock)
    (h : planSorted st.plannned_connections) :
    planSorted (Link.handle_close now st sock).1.plannned_connections := by
  unfold Link.handle_close
  repeat' first
    | exact h
    | (rw [del_connection_id_plan]; exact h)
    | (rw [plan_connect_plan]; apply planSorted_insort; dsimp only;
       first | exact h | (rw [del_connection_id_plan]; exact h))
    | split
    | (dsimp only; split)

theorem handle_close_counter (now : Time) (st : LinkState) (sock : Sock) :
    (Link.handle_close now st sock).1.new_conn_id = st.new_conn_id := by
  unfold Link.handle_close
  repeat' first
    | rfl
    | (rw [del_connection_id_counter])
    | split
    | (dsimp only; split)

theorem ssl_handshake_sorted (now : Time) (st : LinkState) (sock : Sock) (o : HSOutcome)
    (h : planSorted st.plannned_connections) :
    planSorted (Link.ssl_handshake now st sock o).1.plannned_connections := by
  unfold Link.ssl_handshake
  repeat' first
    | exact h
    | (apply handle_close_sorted; exact h)
    | split
    | (dsimp only; split)

theorem ssl_handshake_counter (now : Time) (st : LinkState) (sock : Sock) (o : HSOutcome) :
    (Link.ssl_handshake now st sock o).1.new_conn_id = st.new_conn_id := by
  unfold Link.ssl_handshake
  repeat' first
    | rfl
    | (rw [handle_close_counter])
    | split
    | (dsimp only; split)

theorem handle_connect_sorted (now : Time) (st : LinkState) (sock : Sock) (hs : HSOutcome)
    (h : planSorted st.plannned_connections) :
    planSorted (Link.handle_connect now st sock hs).1.plannned_connections := by
  unfold Link.handle_connect
  repeat' first
    | exact h
    | (apply ssl_handshake_sorted; exact h)
    | (rw [new_connection_id_plan, ssl_handshake_counter])
    | (rw [new_connection_id_plan]; apply ssl_handshake_sorted; exact h)
    | (rw [new_connection_id_plan]; exact h)
    | split
    | (dsimp only; split)

theorem handle_connect_counter_le (now : Time) (st : LinkState) (sock : Sock) (hs : HSOutcome)
    (n : Nat) (h : n ≤ st.new_conn_id) :
    n ≤ (Link.handle_connect now st sock hs).1.new_conn_id := by
  unfold Link.handle_connect
  repeat' first
    | exact h
    | (rw [new_connection_id_counter, ssl_handshake_counter]; exact Nat.le_succ_of_le h)
    | (rw [new_connection_id_counter]; exact Nat.le_succ_of_le h)
    | (rw [ssl_handshake_counter]; exact h)
    | split
    | (dsimp only; split)

theorem connect_sorted (now : Time) (st : LinkState) (a : Address) (o : ConnectOutcome)
    (h : planSorted st.plannned_connections) :
    planSorted (Link.connect_ now st a o).1.plannned_connections := by
  unfold Link.connect_
  repeat' first
    | exact h
    | (apply handle_connect_sorted; exact h)
    | split
    | (dsimp only; split)

theorem connect_counter_le (now : Time) (st : LinkState) (a : Address) (o : ConnectOutcome)
    (n : Nat) (h : n ≤ st.new_conn_id) :
    n ≤ (Link.connect_ now st a o).1.new_conn_id := by
  unfold Link.connect_
  repeat' first
    | exact h
    | (apply handle_connect_counter_le; exact h)
    | (dsimp only; apply handle_connect_counter_le; exact h)
    | split
    | (dsimp only; split)

theorem handle_accept_sorted (now : Time) (st : LinkState) (sock : Sock)
    (acc : AcceptOutcome) (hs : HSOutcome)
    (h : planSorted st.plannned_connections) :
    planSorted (Link.handle_accept now st sock acc hs).1.plannned_connections := by
  unfold Link.handle_accept
  repeat' first
    | exact h
    | (apply ssl_handshake_sorted; exact h)
    | (rw [new_connection_id_plan]; apply ssl_handshake_sorted; exact h)
    | (rw [new_connection_id_plan]; exact h)
    | split
    | (dsimp only; split)

theorem handle_accept_counter_le (now : Time) (st : LinkState) (sock : Sock)
    (acc : AcceptOutcome) (hs : HSOutcome) (n : Nat) (h : n ≤ st.new_conn_id) :
    n ≤ (Link.handle_accept now st sock acc hs).1.new_conn_id := by
  unfold Link.handle_accept
  repeat' first
    | exact h
    | (rw [new_connection_id_counter, ssl_handshake_counter]; exact Nat.le_succ_of_le h)
    | (rw [new_connection_id_counter]; exact Nat.le_succ_of_le h)
    | (rw [ssl_handshake_counter]; exact h)
    | split
    | (dsimp only; split)

theorem handle_recv_sorted (now : Time) (st : LinkState) (sock : Sock) (o : RecvOutcome)
    (h : planSorted st.plannned_connections) :
    planSorted (Link.handle_recv now st sock o).1.plannned_connections := by
  unfold Link.handle_recv
  repeat' first
    | exact h
    | (apply handle_close_sorted; exact h)
    | split
    | (dsimp only; split)

theorem handle_recv_counter (now : Time) (st : LinkState) (sock : Sock) (o : RecvOutcome) :
    (Link.handle_recv now st sock o).1.new_conn_id = st.new_conn_id := by
  unfold Link.handle_recv
  repeat' first
    | rfl
    | (rw [handle_close_counter])
    | split
    | (dsimp only; split)

theorem handle_conn_refused_sorted (now : Time) (st : LinkState) (sock : Sock)
    (h : planSorted st.plannned_connections) :
    planSorted (Link.handle_conn_refused now st sock).1.plannned_connections := by
  unfold Link.handle_conn_refused
  repeat' first
    | exact h
    | (rw [plan_connect_plan]; apply planSorted_insort; exact h)
    | split
    | (dsimp only; split)

theorem handle_conn_refused_counter (now : Time) (st : LinkState) (sock : Sock) :
    (Link.handle_conn_refused now st sock).1.new_conn_id = st.new_conn_id := by
  unfold Link.handle_conn_refused
  repeat' first
    | rfl
    | split
    | (dsimp only; split)

theorem handle_ready_to_send_sorted (st : LinkState) (sock : Sock)
    (h : planSorted st.plannned_connections) :
    planSorted (Link.handle_ready_to_send st sock).1.plannned_connections := by
  unfold Link.handle_ready_to_send
  repeat' first
    | exact h
    | split
    | (dsimp only; split)

theorem handle_ready_to_send_counter (st : LinkState) (sock : Sock) :
    (Link.handle_ready_to_send st sock).1.new_conn_id = st.new_conn_id := by
  unfold Link.handle_ready_to_send
  repeat' first
    | rfl
    | split
    | (dsimp only; split)

theorem handle_sock_err_sorted (now : Time) (st : LinkState) (sock : Sock)
    (h : planSorted st.plannned_connections) :
    planSorted (Link.handle_sock_err now st sock).1.plannned_connections := by
  unfold Link.handle_sock_err
  split
  · exact handle_conn_refused_sorted now st sock h
  · exact handle_close_sorted now st sock h

theorem handle_sock_err_counter (now : Time) (st : LinkState) (sock : Sock) :
    (Link.handle_sock_err now st sock).1.new_conn_id = st.new_conn_id := by
  unfold Link.handle_sock_err
  split
  · exact handle_conn_refused_counter now st sock
  · exact handle_close_counter now st sock

theorem handle_sock_io_sorted (now : Time) (st : LinkState) (fd : Nat) (sock : Sock)
    (mask : Mask) (oracle : IOOracle)
    (h : planSorted st.plannned_connections) :
    planSorted (Link.handle_sock_io now st fd sock mask oracle).1.plannned_connections := by
  unfold Link.handle_sock_io
  repeat' first
    | exact h
    | (apply handle_connect_sorted; exact h)
    | (apply handle_ready_to_send_sorted; exact h)
    | (apply handle_accept_sorted; first
        | exact h
        | (apply handle_connect_sorted; exact h)
        | (apply handle_ready_to_send_sorted; exact h))
    | (apply handle_recv_sorted; first
        | exact h
        | (apply handle_connect_sorted; exact h)
        | (apply handle_ready_to_send_sorted; exact h))
    | split
    | (dsimp only; split)

theorem handle_sock_io_counter_le (now : Time) (st : LinkState) (fd : Nat) (sock : Sock)
    (mask : Mask) (oracle : IOOracle) (n : Nat) (h : n ≤ st.new_conn_id) :
    n ≤ (Link.handle_sock_io now st fd sock mask oracle).1.new_conn_id := by
  unfold Link.handle_sock_io
  repeat' first
    | exact h
    | (rw [handle_ready_to_send_counter]; exact h)
    | (apply handle_connect_counter_le; exact h)
    | (rw [handle_recv_counter]; first
        | exact h
        | (rw [handle_ready_to_send_counter]; exact h)
        | (apply handle_connect_counter_le; exact h))
    | (apply handle_accept_counter_le; first
        | exact h
        | (rw [handle_ready_to_send_counter]; exact h)
        | (apply handle_connect_counter_le; exact h))
    | split
    | (dsimp only; split)

theorem handle_fd_mask_sorted (now : Time) (st : LinkState) (fd : Nat) (mask : Mask)
    (oracle : IOOracle)
    (h : planSorted st.plannned_connections) :
    planSorted (Link.handle_fd_mask now st fd mask oracle).1.plannned_connections := by
  unfold Link.handle_fd_mask
  repeat' first
    | exact h
    | (apply handle_sock_err_sorted; exact h)
    | (apply ssl_handshake_sorted; exact h)
    | (apply handle_sock_io_sorted; exact h)
    | split
    | (dsimp only; split)

theorem handle_fd_mask_counter_le (now : Time) (st : LinkState) (fd : Nat) (mask : Mask)
    (oracle : IOOracle) (n : Nat) (h : n ≤ st.new_conn_id) :
    n ≤ (Link.handle_fd_mask now st fd mask oracle).1.new_conn_id := by
  unfold Link.handle_fd_mask
  repeat' first
    | exact h
    | (rw [handle_sock_err_counter]; exact h)
    | (rw [ssl_handshake_counter]; exact h)
    | (apply handle_sock_io_counter_le; exact h)
    | split
    | (dsimp only; split)

theorem deal_connects_loop_sorted (now : Time) (l : List (Time × Address)) :
    ∀ (st : LinkState) (oracle : List ConnectOutcome) (k : Nat),
      planSorted st.plannned_connections →
      planSorted (Link.deal_connects_loop now st l oracle k).1.plannned_connections := by
  induction l with
  | nil => intro st oracle k h; exact h
  | cons p rest ih =>
    intro st oracle k h
    obtain ⟨when, address⟩ := p
    unfold Link.deal_connects_loop
    repeat' first
      | exact h
      | (apply connect_sorted; exact h)
      | (apply ih; first | exact h | (apply connect_sorted; exact h))
      | split
      | (dsimp only; split)

theorem deal_connects_loop_counter_le (now : Time) (l : List (Time × Address)) :
    ∀ (st : LinkState) (oracle : List ConnectOutcome) (k : Nat) (n : Nat),
      n ≤ st.new_conn_id →
      n ≤ (Link.deal_connects_loop now st l oracle k).1.new_conn_id := by
  induction l with
  | nil => intro st oracle k n h; exact h
  | cons p rest ih =>
    intro st oracle k n h
    obtain ⟨when, address⟩ := p
    unfold Link.deal_connects_loop
    repeat' first
      | exact h
      | (apply connect_counter_le; exact h)
      | (apply ih; first | exact h | (apply connect_counter_le; exact h))
      | split
      | (dsimp only; split)

theorem deal_connects_sorted (now : Time) (st : LinkState) (oracle : List ConnectOutcome)
    (h : planSorted st.plannned_connections) :
    planSorted (Link.deal_connects now st oracle).1.plannned_connections := by
  unfold Link.deal_connects
  repeat' first
    | (apply deal_connects_loop_sorted; exact h)
    | (apply planSorted_drop; apply deal_connects_loop_sorted; exact h)
    | split
    | (dsimp only; split)

theorem deal_connects_counter_le (now : Time) (st : LinkState) (oracle : List ConnectOutcome)
    (n : Nat) (h : n ≤ st.new_conn_id) :
    n ≤ (Link.deal_connects now st oracle).1.new_conn_id := by
  unfold Link.deal_connects
  repeat' first
    | (apply deal_connects_loop_counter_le; exact h)
    | split
    | (dsimp only; split)

theorem send_sorted (st : LinkState) (cid : ConnId) (o : SendOutcome) (now : Time)
    (h : planSorted st.plannned_connections) :
    planSorted (Link.send st cid o now).1.plannned_connections := by
  unfold Link.send
  repeat' first
    | exact h
    | (apply handle_close_sorted; exact h)
    | split
    | (dsimp only; split)

theorem send_counter (st : LinkState) (cid : ConnId) (o : SendOutcome) (now : Time) :
    (Link.send st cid o now).1.new_conn_id = st.new_conn_id := by
  unfold Link.send
  repeat' first
    | rfl
    | (rw [handle_close_counter])
    | split
    | (dsimp only; split)

theorem close_sorted (now : Time) (st : LinkState) (cid : ConnId)
    (h : planSorted st.plannned_connections) :
    planSorted (Link.close now st cid).1.plannned_connections := by
  unfold Link.close
  repeat' first
    | exact h
    | (apply handle_close_sorted; exact h)
    | split
    | (dsimp only; split)

theorem close_counter (now : Time) (st : LinkState) (cid : ConnId) :
    (Link.close now st cid).1.new_conn_id = st.new_conn_id := by
  unfold Link.close
  repeat' first
    | rfl
    | (rw [handle_close_counter])
    | split
    | (dsimp only; split)

theorem add_connector_sorted (st : LinkState) (a : Address) (ri : Option Time)
    (cfg : Option SSLConfig)
    (h : planSorted st.plannned_connections) :
    planSorted (Link.add_connector st a ri cfg).1.plannned_connections := by
  unfold Link.add_connector
  repeat' first
    | exact h
    | (rw [plan_connect_plan]; apply planSorted_insort; exact h)
    | split
    | (dsimp only; split)

theorem add_connector_counter (st : LinkState) (a : Address) (ri : Option Time)
    (cfg : Option SSLConfig) :
    (Link.add_connector st a ri cfg).1.new_conn_id = st.new_conn_id := by
  unfold Link.add_connector
  repeat' first
    | rfl
    | split
    | (dsimp only; split)

theorem del_connector_sorted (st : LinkState) (a : Address)
    (h : planSorted st.plannned_connections) :
    planSorted (Link.del_connector st a).1.plannned_connections := by
  unfold Link.del_connector
  repeat' first
    | exact h
    | (apply planSorted_filter; exact h)
    | split
    | (dsimp only; split)

theorem del_connector_counter (st : LinkState) (a : Address) :
    (Link.del_connector st a).1.new_conn_id = st.new_conn_id := by
  unfold Link.del_connector
  repeat' first
    | rfl
    | split
    | (dsimp only; split)

theorem del_listener_sorted (st : LinkState) (a : Address)
    (h : planSorted st.plannned_connections) :
    planSorted (Link.del_listener st a).1.plannned_connections := by
  unfold Link.del_listener
  repeat' first
    | exact h
    | split
    | (dsimp only; split)

theorem del_listener_counter (st : LinkState) (a : Address) :
    (Link.del_listener st a).1.new_conn_id = st.new_conn_id := by
  unfold Link.del_listener
  repeat' first
    | rfl
    | split
    | (dsimp only; split)

/-! ### Operation sequences on a Link -/

/-- One operation on a `Link`: a public call (`add_connector`,
`del_connector`, `del_listener`, `send`, `close`) or an internal step the
event loop performs (`plan_connect`, `deal_connects`, `handle_fd_mask`),
with the OS outcomes it consumes. -/
inductive LinkOp where
  | add_connector (a : Address) (ri : Option Time) (cfg : Option SSLConfig)
  | del_connector (a : Address)
  | del_listener (a : Address)
  | plan_connect (when : Time) (a : Address)
  | deal_connects (now : Time) (oracle : List ConnectOutcome)
  | send (cid : ConnId) (o : SendOutcome) (now : Time)
  | close (cid : ConnId) (now : Time)
  | handle_fd_mask (now : Time) (fd : Nat) (mask : Mask) (oracle : IOOracle)

/-- The state after one operation.  When the method raises, this is the
state Python leaves behind (mutations before the `raise` persist). -/
def stepOp (st : LinkState) : LinkOp → LinkState
  | .add_connector a ri cfg => (Link.add_connector st a ri cfg).1
  | .del_connector a => (Link.del_connector st a).1
  | .del_listener a => (Link.del_listener st a).1
  | .plan_connect when a => Link.plan_connect st when a
  | .deal_connects now oracle => (Link.deal_connects now st oracle).1
  | .send cid o now => (Link.send st cid o now).1
  | .close cid now => (Link.close now st cid).1
  | .handle_fd_mask now fd mask oracle => (Link.handle_fd_mask now st fd mask oracle).1

/-- The state after a sequence of operations. -/
def runOps (st : LinkState) : List LinkOp → LinkState
  | [] => st
  | op :: ops => runOps (stepOp st op) ops

theorem stepOp_sorted (st : LinkState) (op : LinkOp)
    (h : planSorted st.plannned_connections) :
    planSorted (stepOp st op).plannned_connections := by
  cases op with
  | add_connector a ri cfg => exact add_connector_sorted st a ri cfg h
  | del_connector a => exact del_connector_sorted st a h
  | del_listener a => exact del_listener_sorted st a h
  | plan_connect t a =>
    rw [stepOp, plan_connect_plan]
    exact planSorted_insort _ _ h
  | deal_connects now oracle => exact deal_connects_sorted now st oracle h
  | send cid o now => exact send_sorted st cid o now h
  | close cid now => exact close_sorted now st cid h
  | handle_fd_mask now fd mask oracle => exact handle_fd_mask_sorted now st fd mask oracle h

theorem stepOp_counter_le (st : LinkState) (op : LinkOp) :
    st.new_conn_id ≤ (stepOp st op).new_conn_id := by
  cases op with
  | add_connector a ri cfg => rw [stepOp, add_connector_counter]
  | del_connector a => rw [stepOp, del_connector_counter]
  | del_listener a => rw [stepOp, del_listener_counter]
  | plan_connect t a => rw [stepOp, plan_connect_counter]
  | deal_connects now oracle =>
    exact deal_connects_counter_le now st oracle _ (Nat.le_refl _)
  | send cid o now => rw [stepOp, send_counter]
  | close cid now => rw [stepOp, close_counter]
  | handle_fd_mask now fd mask oracle =>
    exact handle_fd_mask_counter_le now st fd mask oracle _ (Nat.le_refl _)

theorem runOps_sorted (ops : List LinkOp) :
    ∀ (st : LinkState), planSorted st.plannned_connections →
      planSorted (runOps st ops).plannned_connections := by
  induction ops with
  | nil => intro st h; exact h
  | cons op ops ih => intro st h; exact ih (stepOp st op) (stepOp_sorted st op h)

theorem runOps_counter_le (ops : List LinkOp) :
    ∀ (st : LinkState), st.new_conn_id ≤ (runOps st ops).new_conn_id := by
  induction ops with
  | nil => intro st; exact Nat.le_refl _
  | cons op ops ih =>
    intro st
    exact Nat.le_trans (stepOp_counter_le st op) (ih (stepOp st op))

/-- When `del_connector` returns without raising, the planned-connections
list has been filtered free of the deleted address. -/
theorem del_connector_plan_filter (st : LinkState) (a : Address)
    (herr : (Link.del_connector st a).2 = none) :
    (Link.del_connector st a).1.plannned_connections
      = st.plannned_connections.filter (fun p => decide (p.2 ≠ a)) := by
  unfold Link.del_connector at herr ⊢
  split at herr
  · simp at herr
  · rename_i sockOpt heq
    cases sockOpt with
    | none =>
      dsimp only at herr ⊢
      split at herr
      · rename_i hi
        by_cases hssl : hask st.ssl_config (Sum.inl a) = true <;> simp [hssl, hi]
      · simp at herr
    | some sock =>
      dsimp only at herr ⊢
      split at herr
      · rename_i hi
        by_cases hssl : hask st.ssl_config (Sum.inl a) = true <;> simp [hssl, hi]
      · simp at herr

theorem new_connection_id_snd (st : LinkState) (sock : Sock) :
    (Link.new_connection_id st sock).2 = Link.connIdStr (st.new_conn_id + 1) sock.fd := rfl

/-! ### Claims -/

/-- C10: for a readiness event whose descriptor is not the poll bell's
read end and is absent from the socket table, `handle_fd_mask` returns
without raising, fires no callback, and leaves the Link state
unchanged. -/
theorem C10_unknown_fd_skipped (now : Time) (st : LinkState) (fd : Nat)
    (mask : Mask) (oracle : IOOracle)
    (h1 : fd ≠ st.poll_bell_r) (h2 : getk st.sock_by_fd fd = none) :
    Link.handle_fd_mask now st fd mask oracle = (st, [], none) := by
  unfold Link.handle_fd_mask
  rw [if_neg h1, h2]

theorem C10_unknown_fd_skipped_witness :
    Link.handle_fd_mask 0 (linkInit 3) 9 ⟨true, false, false, false⟩
      ⟨HSOutcome.ok, RecvOutcome.fragment [], AcceptOutcome.acceptOk, HSOutcome.ok⟩
      = (linkInit 3, [], none) :=
  C10_unknown_fd_skipped 0 (linkInit 3) 9 ⟨true, false, false, false⟩
    ⟨HSOutcome.ok, RecvOutcome.fragment [], AcceptOutcome.acceptOk, HSOutcome.ok⟩
    (by decide) (by decide)

/-- C9: the connection identifiers returned by two distinct calls to
`new_connection_id` during the lifetime of a Link instance are distinct,
whatever sockets are passed (file-descriptor reuse included) and whatever
operations run in between: the counter embedded in the id string is bumped
on every call and never decreased by any operation. -/
theorem C9_connection_ids_unique (st : LinkState) (s1 s2 : Sock) (ops : List LinkOp) :
    (Link.new_connection_id (runOps (Link.new_connection_id st s1).1 ops) s2).2
      ≠ (Link.new_connection_id st s1).2 := by
  have h2 := runOps_counter_le ops (Link.new_connection_id st s1).1
  rw [new_connection_id_counter] at h2
  rw [new_connection_id_snd, new_connection_id_snd]
  exact connIdStr_inj_counter (by omega)

/-- The operation sequence used to witness the planned-connections
invariant: two connectors, a manual plan entry, a scheduler pass, a
connector removal. -/
def c8ops : List LinkOp :=
  [LinkOp.add_connector 7 (some 2) none,
   LinkOp.add_connector 4 none none,
   LinkOp.plan_connect 5 7,
   LinkOp.deal_connects 1 [],
   LinkOp.del_connector 4]

/-- C8: over any sequence of operations from a fresh Link, the
planned-connections list stays sorted ascending by due time, and
immediately after a `del_connector(address)` call that returns (does not
raise), the list holds no entry for that address. -/
theorem C8_plan_invariant (bellFd : Nat) (ops : List LinkOp) (a : Address) :
    timeSorted (runOps (linkInit bellFd) ops).plannned_connections ∧
    ((Link.del_connector (runOps (linkInit bellFd) ops) a).2 = none →
      ∀ p ∈ (Link.del_connector (runOps (linkInit bellFd) ops) a).1.plannned_connections,
        p.2 ≠ a) := by
  constructor
  · exact planSorted_of_timeSorted _
      (runOps_sorted ops (linkInit bellFd) (List.Pairwise.nil))
  · intro herr p hp
    rw [del_connector_plan_filter _ _ herr] at hp
    have := (List.mem_filter.mp hp).2
    simpa using this

theorem C8_plan_invariant_witness :
    timeSorted (runOps (linkInit 3) c8ops).plannned_connections ∧
    ∀ p ∈ (Link.del_connector (runOps (linkInit 3) c8ops) 7).1.plannned_connections,
      p.2 ≠ 7 :=
  ⟨(C8_plan_invariant 3 c8ops 7).1, (C8_plan_invariant 3 c8ops 7).2 (by decide)⟩

theorem del_connection_id_spec (st : LinkState) (sock : Sock) (cid : ConnId)
    (hc : getk st.conn_by_sock sock = some cid)
    (hcb : hask st.sock_by_conn cid = true) :
    Link.del_connection_id st sock =
      ({ st with conn_by_sock := delk st.conn_by_sock sock,
                 sock_by_conn := delk st.sock_by_conn cid }, none) := by
  unfold Link.del_connection_id
  rw [hc]
  dsimp only
  rw [if_pos hcb]

/-- Computation of `handle_close` on a socket that is registered, present
in the descriptor table, and has a consistent connection id. -/
theorem handle_close_spec (now : Time) (st : LinkState) (sock : Sock) (cid : ConnId)
    (hp : hask st.poller sock.fd = true)
    (hfd : hask st.sock_by_fd sock.fd = true)
    (hc : getk st.conn_by_sock sock = some cid)
    (hcb : hask st.sock_by_conn cid = true) :
    Link.handle_close now st sock =
      (let st1 : LinkState :=
        { st with poller := delk st.poller sock.fd,
                  sock_by_fd := delk st.sock_by_fd sock.fd,
                  conn_by_sock := delk st.conn_by_sock sock,
                  sock_by_conn := delk st.sock_by_conn cid }
       let evs := if sock.isSSL = false ∨ sock ∉ st.in_ssl_handshake
                  then [Event.on_disconnect cid] else []
       match getk st.socks_addresses sock with
       | some a =>
         let st2 : LinkState := { st1 with socks_addresses := delk st1.socks_addresses sock }
         match getk st.reconnect_intervals a with
         | some i =>
           if i ≠ 0 then (Link.plan_connect st2 (now + i) a, evs, none)
           else (st2, evs, none)
         | none => (st2, evs, none)
       | none => (st1, evs, none)) := by
  unfold Link.handle_close
  simp only [pollerUnregister, hp, if_true]
  dsimp only
  rw [if_pos hfd, hc]
  dsimp only
  rw [del_connection_id_spec
        { st with poller := delk st.poller sock.fd, sock_by_fd := delk st.sock_by_fd sock.fd }
        sock cid hc hcb]

theorem handle_close_err_none (now : Time) (st : LinkState) (sock : Sock) (cid : ConnId)
    (hp : hask st.poller sock.fd = true)
    (hfd : hask st.sock_by_fd sock.fd = true)
    (hc : getk st.conn_by_sock sock = some cid)
    (hcb : hask st.sock_by_conn cid = true) :
    (Link.handle_close now st sock).2.2 = none := by
  rw [handle_close_spec now st sock cid hp hfd hc hcb]
  cases ha : getk st.socks_addresses sock with
  | none => rfl
  | some a0 =>
    dsimp only
    cases hi : getk st.reconnect_intervals a0 with
    | none => rfl
    | some i0 => by_cases hz : i0 ≠ 0 <;> simp [hz]

/-- C7: closing a socket that carries a connection id removes both
directions of the id mapping and fires `on_disconnect`, suppressed exactly
when the close happens while the SSL socket is still inside an unfinished
handshake; and when the socket belonged to a connector address with a
configured (truthy) reconnect interval, a reconnect for that address is
planned at `now + interval`. -/
theorem C7_close_disconnect_and_reconnect (now : Time) (st : LinkState) (sock : Sock)
    (cid : ConnId)
    (hp : hask st.poller sock.fd = true)
    (hfd : hask st.sock_by_fd sock.fd = true)
    (hc : getk st.conn_by_sock sock = some cid)
    (hcb : hask st.sock_by_conn cid = true) :
    (Link.handle_close now st sock).2.2 = none ∧
    getk (Link.handle_close now st sock).1.conn_by_sock sock = none ∧
    getk (Link.handle_close now st sock).1.sock_by_conn cid = none ∧
    ((Link.handle_close now st sock).2.1
      = if sock.isSSL = true ∧ sock ∈ st.in_ssl_handshake then []
        else [Event.on_disconnect cid]) ∧
    (∀ a i, getk st.socks_addresses sock = some a →
      getk st.reconnect_intervals a = some i → i ≠ 0 →
      (now + i, a) ∈ (Link.handle_close now st sock).1.plannned_connections) := by
  have hevs : (if sock.isSSL = false ∨ sock ∉ st.in_ssl_handshake
                then [Event.on_disconnect cid] else [])
      = if sock.isSSL = true ∧ sock ∈ st.in_ssl_handshake then []
        else [Event.on_disconnect cid] := by
    by_cases hssl : sock.isSSL <;> by_cases hm : sock ∈ st.in_ssl_handshake <;>
      simp [hssl, hm]
  rw [handle_close_spec now st sock cid hp hfd hc hcb]
  cases ha : getk st.socks_addresses sock with
  | none =>
    refine ⟨rfl, getk_delk_self _ _, getk_delk_self _ _, hevs, ?_⟩
    intro a i ha' _ _
    cases ha'
  | some a0 =>
    dsimp only
    cases hi : getk st.reconnect_intervals a0 with
    | none =>
      refine ⟨rfl, getk_delk_self _ _, getk_delk_self _ _, hevs, ?_⟩
      intro a i ha' hi' _
      injection ha' with hea
      subst hea
      rw [hi] at hi'
      cases hi'
    | some i0 =>
      dsimp only
      by_cases hz : i0 ≠ 0
      · rw [if_pos hz]
        refine ⟨rfl, getk_delk_self _ _, getk_delk_self _ _, hevs, ?_⟩
        intro a i ha' hi' _
        injection ha' with hea
        subst hea
        rw [hi] at hi'
        injection hi' with hei
        subst hei
        rw [plan_connect_plan]
        exact self_mem_insort _ _
      · rw [if_neg hz]
        refine ⟨rfl, getk_delk_self _ _, getk_delk_self _ _, hevs, ?_⟩
        intro a i ha' hi' hne
        injection ha' with hea
        subst hea
        rw [hi] at hi'
        injection hi' with hei
        have h0 : i0 = 0 := not_not.mp hz
        exact absurd (hei.symm.trans h0) hne

/-- A plain (non-SSL) connected socket used to witness C7. -/
def c7sock : Sock := ⟨0, 5, false⟩

/-- A Link with one live connector connection, used to witness C7. -/
def c7state : LinkState :=
  { linkInit 3 with
      new_conn_id := 1
      poller := [(3, ⟨true, false⟩), (5, ⟨true, false⟩)]
      sock_by_fd := [(5, c7sock)]
      conn_by_sock := [(c7sock, "1fd5")]
      sock_by_conn := [("1fd5", c7sock)]
      socks_addresses := [(c7sock, 7)]
      connectors := [(7, some c7sock)]
      reconnect_intervals := [(7, 3)] }

theorem C7_close_disconnect_and_reconnect_witness :
    (Link.handle_close 10 c7state c7sock).2.2 = none ∧
    getk (Link.handle_close 10 c7state c7sock).1.conn_by_sock c7sock = none ∧
    getk (Link.handle_close 10 c7state c7sock).1.sock_by_conn "1fd5" = none ∧
    ((Link.handle_close 10 c7state c7sock).2.1
      = if c7sock.isSSL = true ∧ c7sock ∈ c7state.in_ssl_handshake then []
        else [Event.on_disconnect "1fd5"]) ∧
    (∀ a i, getk c7state.socks_addresses c7sock = some a →
      getk c7state.reconnect_intervals a = some i → i ≠ 0 →
      ((10 : Time) + i, a) ∈ (Link.handle_close 10 c7state c7sock).1.plannned_connections) :=
  C7_close_disconnect_and_reconnect 10 c7state c7sock "1fd5"
    (by decide) (by decide) (by decide) (by decide)

/-- C2: `send` on a connection id present in the socket table performs one
non-blocking write.  A successful write of `n` bytes raises the poller
interest to read-and-write and returns `n`; `EWOULDBLOCK` returns 0 and
changes nothing; a connection-fatal errno runs the normal close handling
and returns 0 without propagating; any other socket error is raised to the
caller with the state untouched. -/
theorem C2_send_behavior (st : LinkState) (cid : ConnId) (sock : Sock) (now : Time)
    (h : getk st.sock_by_conn cid = some sock)
    (hp : hask st.poller sock.fd = true)
    (hfd : hask st.sock_by_fd sock.fd = true)
    (hc2 : getk st.conn_by_sock sock = some cid) :
    (∀ n, Link.send st cid (SendOutcome.sent n) now
        = ({ st with poller := setk st.poller sock.fd ⟨true, true⟩ }, [], none, some n)) ∧
    Link.send st cid (SendOutcome.sockErr EWOULDBLOCK) now = (st, [], none, some 0) ∧
    (∀ code, code ∈ fatalErrs →
      Link.send st cid (SendOutcome.sockErr code) now
        = ((Link.handle_close now st sock).1, (Link.handle_close now st sock).2.1,
           none, some 0)) ∧
    (∀ code, code ∉ fatalErrs → code ≠ EWOULDBLOCK →
      Link.send st cid (SendOutcome.sockErr code) now
        = (st, [], some (LinkErr.socketError code), none)) := by
  have hcb : hask st.sock_by_conn cid = true := by rw [hask, h]; rfl
  refine ⟨?_, ?_, ?_, ?_⟩
  · intro n
    unfold Link.send
    rw [h]
    simp only [pollerModify, hp, if_true]
  · unfold Link.send
    rw [h]
    dsimp only
    rw [if_pos rfl]
  · intro code hcode
    have hne : code ≠ EWOULDBLOCK := by
      intro he
      subst he
      revert hcode
      decide
    unfold Link.send
    rw [h]
    dsimp only
    rw [if_neg hne, if_pos hcode,
        handle_close_err_none now st sock cid hp hfd hc2 hcb]
  · intro code hnf hne
    unfold Link.send
    rw [h]
    dsimp only
    rw [if_neg hne, if_neg hnf]

/-- The socket used to witness C2. -/
def c2sock : Sock := ⟨0, 5, false⟩

/-- A Link with one live connection, used to witness C2. -/
def c2state : LinkState :=
  { linkInit 3 with
      new_conn_id := 1
      poller := [(3, ⟨true, false⟩), (5, ⟨true, false⟩)]
      sock_by_fd := [(5, c2sock)]
      conn_by_sock := [(c2sock, "1fd5")]
      sock_by_conn := [("1fd5", c2sock)] }

theorem C2_send_behavior_witness :
    (∀ n, Link.send c2state "1fd5" (SendOutcome.sent n) 0
        = ({ c2state with poller := setk c2state.poller c2sock.fd ⟨true, true⟩ },
           [], none, some n)) ∧
    Link.send c2state "1fd5" (SendOutcome.sockErr EWOULDBLOCK) 0 = (c2state, [], none, some 0) ∧
    (∀ code, code ∈ fatalErrs →
      Link.send c2state "1fd5" (SendOutcome.sockErr code) 0
        = ((Link.handle_close 0 c2state c2sock).1, (Link.handle_close 0 c2state c2sock).2.1,
           none, some 0)) ∧
    (∀ code, code ∉ fatalErrs → code ≠ EWOULDBLOCK →
      Link.send c2state "1fd5" (SendOutcome.sockErr code) 0
        = (c2state, [], some (LinkErr.socketError code), none)) :=
  C2_send_behavior c2state "1fd5" c2sock 0 (by decide) (by decide) (by decide) (by decide)

/-- The socket used in the C3 counterexample. -/
def c3sock : Sock := ⟨0, 5, false⟩

/-- A Link with one live connection whose poller interest is read-only,
used for C3. -/
def c3state : LinkState :=
  { linkInit 3 with
      new_conn_id := 1
      poller := [(3, ⟨true, false⟩), (5, ⟨true, false⟩)]
      sock_by_fd := [(5, c3sock)]
      conn_by_sock := [(c3sock, "1fd5")]
      sock_by_conn := [("1fd5", c3sock)] }

/-- C3 counterexample: a `send` that returns 0 because the write would
block leaves the Link state - in particular the poller interest of that
socket - completely unchanged: the interest stays read-only and does NOT
include writable, contrary to the claim. -/
theorem C3_would_block_counterexample :
    Link.send c3state "1fd5" (SendOutcome.sockErr EWOULDBLOCK) 0
      = (c3state, [], none, some 0) ∧
    getk c3state.poller 5 = some ⟨true, false⟩ := by decide

/-- C3 amended: a would-block `send` leaves the poller interest unchanged;
it is a send that SUCCEEDS which raises the interest to
read-and-write, so that when the socket next polls writable,
`handle_ready_to_send` fires `on_ready_to_send` for that connection and
drops the interest back to read-only. -/
theorem C3_ready_to_send_armed_by_successful_send (st : LinkState) (cid : ConnId)
    (sock : Sock) (n : Nat) (now : Time)
    (h : getk st.sock_by_conn cid = some sock)
    (hp : hask st.poller sock.fd = true)
    (hc : getk st.conn_by_sock sock = some cid) :
    Link.send st cid (SendOutcome.sockErr EWOULDBLOCK) now = (st, [], none, some 0) ∧
    getk (Link.send st cid (SendOutcome.sent n) now).1.poller sock.fd
      = some ⟨true, true⟩ ∧
    (Link.handle_ready_to_send (Link.send st cid (SendOutcome.sent n) now).1 sock).2.1
      = [Event.on_ready_to_send cid] ∧
    (Link.handle_ready_to_send (Link.send st cid (SendOutcome.sent n) now).1 sock).2.2
      = none ∧
    getk (Link.handle_ready_to_send
            (Link.send st cid (SendOutcome.sent n) now).1 sock).1.poller sock.fd
      = some ⟨true, false⟩ := by
  have hsend : Link.send st cid (SendOutcome.sent n) now
      = ({ st with poller := setk st.poller sock.fd ⟨true, true⟩ }, [], none, some n) := by
    unfold Link.send
    rw [h]
    simp only [pollerModify, hp, if_true]
  have hwb : Link.send st cid (SendOutcome.sockErr EWOULDBLOCK) now
      = (st, [], none, some 0) := by
    unfold Link.send
    rw [h]
    dsimp only
    rw [if_pos rfl]
  have hready : Link.handle_ready_to_send
        ({ st with poller := setk st.poller sock.fd ⟨true, true⟩ }) sock
      = ({ st with poller := setk (setk st.poller sock.fd ⟨true, true⟩) sock.fd
                                ⟨true, false⟩ },
         [Event.on_ready_to_send cid], none) := by
    unfold Link.handle_ready_to_send
    simp only [pollerModify, hask_setk_self, if_true]
    rw [hc]
  refine ⟨hwb, ?_, ?_, ?_, ?_⟩
  · rw [hsend]
    exact getk_setk_self _ _ _
  · rw [hsend, hready]
  · rw [hsend, hready]
  · rw [hsend, hready]
    exact getk_setk_self _ _ _

/-- The socket used to witness the amended C3. -/
def c3wsock : Sock := ⟨0, 6, false⟩

/-- The Link used to witness the amended C3. -/
def c3wstate : LinkState :=
  { linkInit 3 with
      new_conn_id := 1
      poller := [(3, ⟨true, false⟩), (6, ⟨true, false⟩)]
      sock_by_fd := [(6, c3wsock)]
      conn_by_sock := [(c3wsock, "1fd6")]
      sock_by_conn := [("1fd6", c3wsock)] }

theorem C3_ready_to_send_armed_witness :
    Link.send c3wstate "1fd6" (SendOutcome.sockErr EWOULDBLOCK) 0
      = (c3wstate, [], none, some 0) ∧
    getk (Link.send c3wstate "1fd6" (SendOutcome.sent 4) 0).1.poller c3wsock.fd
      = some ⟨true, true⟩ ∧
    (Link.handle_ready_to_send (Link.send c3wstate "1fd6" (SendOutcome.sent 4) 0).1
        c3wsock).2.1 = [Event.on_ready_to_send "1fd6"] ∧
    (Link.handle_ready_to_send (Link.send c3wstate "1fd6" (SendOutcome.sent 4) 0).1
        c3wsock).2.2 = none ∧
    getk (Link.handle_ready_to_send
            (Link.send c3wstate "1fd6" (SendOutcome.sent 4) 0).1 c3wsock).1.poller
      c3wsock.fd = some ⟨true, false⟩ :=
  C3_ready_to_send_armed_by_successful_send c3wstate "1fd6" c3wsock 4 0
    (by decide) (by decide) (by decide)

/-- Computation of `del_connector` on a registered connector whose
interval is present. -/
theorem del_connector_spec (st : LinkState) (a : Address) (sockOpt : Option Sock)
    (hconn : getk st.connectors a = some sockOpt)
    (hint : hask st.reconnect_intervals a = true) :
    Link.del_connector st a =
      (let st1 : LinkState := { st with connectors := delk st.connectors a }
       let st2 : LinkState :=
         match sockOpt with
         | some sock =>
           { st1 with socks_waiting_to_connect := remElem st1.socks_waiting_to_connect sock }
         | none => st1
       let st3 : LinkState := { st2 with reconnect_intervals := delk st2.reconnect_intervals a }
       let st4 : LinkState :=
         if hask st3.ssl_config (Sum.inl a) then
           { st3 with ssl_config := delk st3.ssl_config (Sum.inl a) }
         else st3
       ({ st4 with plannned_connections :=
            st4.plannned_connections.filter (fun p => decide (p.2 ≠ a)) }, none)) := by
  cases sockOpt with
  | none =>
    unfold Link.del_connector
    split
    · rename_i hnone
      rw [hconn] at hnone
      cases hnone
    · rename_i sockOptB heq
      rw [hconn] at heq
      injection heq with he
      subst he
      dsimp only
      rw [if_pos hint]
  | some sock =>
    unfold Link.del_connector
    split
    · rename_i hnone
      rw [hconn] at hnone
      cases hnone
    · rename_i sockOptB heq
      rw [hconn] at heq
      injection heq with he
      subst he
      dsimp only
      rw [if_pos hint]

/-- C4 counterexample: a connector address with a live, registered,
connection-id-bearing socket; `del_connector` returns normally, yet the
socket is still in the descriptor table, still registered with the
poller, still mapped to its connection id and still associated with the
address - it is not disconnected, contrary to the claim. -/
def c4sock : Sock := ⟨0, 5, false⟩

/-- The Link used for the C4 counterexample: connector 7 has the live
socket `c4sock`. -/
def c4state : LinkState :=
  { linkInit 3 with
      new_conn_id := 1
      poller := [(3, ⟨true, false⟩), (5, ⟨true, false⟩)]
      sock_by_fd := [(5, c4sock)]
      conn_by_sock := [(c4sock, "1fd5")]
      sock_by_conn := [("1fd5", c4sock)]
      socks_addresses := [(c4sock, 7)]
      connectors := [(7, some c4sock)]
      reconnect_intervals := [(7, 3)] }

theorem C4_live_socket_not_disconnected_counterexample :
    (Link.del_connector c4state 7).2 = none ∧
    getk (Link.del_connector c4state 7).1.sock_by_fd 5 = some c4sock ∧
    hask (Link.del_connector c4state 7).1.poller 5 = true ∧
    getk (Link.del_connector c4state 7).1.conn_by_sock c4sock = some "1fd5" ∧
    getk (Link.del_connector c4state 7).1.sock_by_conn "1fd5" = some c4sock ∧
    getk (Link.del_connector c4state 7).1.socks_addresses c4sock = some 7 := by decide

/-- C4 amended: `del_connector` on a registered address removes the
connector record, its reconnect interval, its SSL config, every planned
entry for the address, and drops the connector's socket from the
waiting-to-connect set - and nothing more: the descriptor table, the
poller registrations, both connection-id maps and the socket-address map
are left untouched, so a live or connecting socket is NOT disconnected. -/
theorem C4_del_connector_behavior (st : LinkState) (a : Address) (sockOpt : Option Sock)
    (hconn : getk st.connectors a = some sockOpt)
    (hint : hask st.reconnect_intervals a = true) :
    (Link.del_connector st a).2 = none ∧
    hask (Link.del_connector st a).1.connectors a = false ∧
    hask (Link.del_connector st a).1.reconnect_intervals a = false ∧
    hask (Link.del_connector st a).1.ssl_config (Sum.inl a) = false ∧
    (∀ p ∈ (Link.del_connector st a).1.plannned_connections, p.2 ≠ a) ∧
    (Link.del_connector st a).1.sock_by_fd = st.sock_by_fd ∧
    (Link.del_connector st a).1.poller = st.poller ∧
    (Link.del_connector st a).1.conn_by_sock = st.conn_by_sock ∧
    (Link.del_connector st a).1.sock_by_conn = st.sock_by_conn ∧
    (Link.del_connector st a).1.socks_addresses = st.socks_addresses ∧
    (∀ sock, sockOpt = some sock →
      sock ∉ (Link.del_connector st a).1.socks_waiting_to_connect) := by
  rw [del_connector_spec st a sockOpt hconn hint]
  have hplan : ∀ (l : List (Time × Address)),
      ∀ p ∈ l.filter (fun p => decide (p.2 ≠ a)), p.2 ≠ a := by
    intro l p hp
    have := (List.mem_filter.mp hp).2
    simpa using this
  cases sockOpt with
  | none =>
    dsimp only
    by_cases hssl : hask st.ssl_config (Sum.inl a) = true
    · rw [if_pos hssl]
      exact ⟨rfl, hask_delk_self _ _, hask_delk_self _ _, hask_delk_self _ _,
             hplan _, rfl, rfl, rfl, rfl, rfl, fun sock hs => by cases hs⟩
    · rw [if_neg hssl]
      refine ⟨rfl, hask_delk_self _ _, hask_delk_self _ _, ?_,
              hplan _, rfl, rfl, rfl, rfl, rfl, fun sock hs => by cases hs⟩
      simpa using hssl
  | some sock0 =>
    dsimp only
    by_cases hssl : hask st.ssl_config (Sum.inl a) = true
    · rw [if_pos hssl]
      refine ⟨rfl, hask_delk_self _ _, hask_delk_self _ _, hask_delk_self _ _,
              hplan _, rfl, rfl, rfl, rfl, rfl, ?_⟩
      intro sock hs
      injection hs with he
      subst he
      exact not_mem_remElem _ _
    · rw [if_neg hssl]
      refine ⟨rfl, hask_delk_self _ _, hask_delk_self _ _, ?_, hplan _, rfl, rfl, rfl,
              rfl, rfl, ?_⟩
      · simpa using hssl
      · intro sock hs
        injection hs with he
        subst he
        exact not_mem_remElem _ _

/-- The Link used to witness the amended C4 (same shape as the
counterexample state, distinct instance). -/
def c4wstate : LinkState :=
  { linkInit 3 with
      new_conn_id := 1
      poller := [(3, ⟨true, false⟩), (5, ⟨true, false⟩)]
      sock_by_fd := [(5, c4sock)]
      conn_by_sock := [(c4sock, "1fd5")]
      sock_by_conn := [("1fd5", c4sock)]
      socks_addresses := [(c4sock, 7)]
      socks_waiting_to_connect := [c4sock]
      connectors := [(7, some c4sock)]
      reconnect_intervals := [(7, 3)]
      plannned_connections := [(2, 7)] }

theorem C4_del_connector_behavior_witness :
    (Link.del_connector c4wstate 7).2 = none ∧
    hask (Link.del_connector c4wstate 7).1.connectors 7 = false ∧
    hask (Link.del_connector c4wstate 7).1.reconnect_intervals 7 = false ∧
    hask (Link.del_connector c4wstate 7).1.ssl_config (Sum.inl 7) = false ∧
    (∀ p ∈ (Link.del_connector c4wstate 7).1.plannned_connections, p.2 ≠ 7) ∧
    (Link.del_connector c4wstate 7).1.sock_by_fd = c4wstate.sock_by_fd ∧
    (Link.del_connector c4wstate 7).1.poller = c4wstate.poller ∧
    (Link.del_connector c4wstate 7).1.conn_by_sock = c4wstate.conn_by_sock ∧
    (Link.del_connector c4wstate 7).1.sock_by_conn = c4wstate.sock_by_conn ∧
    (Link.del_connector c4wstate 7).1.socks_addresses = c4wstate.socks_addresses ∧
    (∀ sock, (some c4sock : Option Sock) = some sock →
      sock ∉ (Link.del_connector c4wstate 7).1.socks_waiting_to_connect) :=
  C4_del_connector_behavior c4wstate 7 (some c4sock) (by decide) (by decide)

/-- SSL config already attached to address 7 in the C5 counterexample. -/
def c5cfgOld : SSLConfig := ⟨some "old.key", none, 0, 2, none⟩

/-- SSL config passed to the failing duplicate `add_connector` call. -/
def c5cfgNew : SSLConfig := ⟨some "new.key", none, 0, 2, none⟩

/-- The Link used for the C5 counterexample: connector 7 registered with
`c5cfgOld`. -/
def c5state : LinkState :=
  { linkInit 3 with
      connectors := [(7, none)]
      reconnect_intervals := [(7, 3)]
      plannned_connections := [(0, 7)]
      ssl_config := [(Sum.inl 7, c5cfgOld)] }

/-- C5 counterexample: `add_connector` on an address that already has a
connector raises `ValueError` - but it has already overwritten the
address's SSL config with the new one before the duplicate check, so the
failure is not atomic, contrary to the claim. -/
theorem C5_duplicate_add_not_atomic_counterexample :
    (Link.add_connector c5state 7 none (some c5cfgNew)).2.1 = some LinkErr.valueError ∧
    getk c5state.ssl_config (Sum.inl 7) = some c5cfgOld ∧
    getk (Link.add_connector c5state 7 none (some c5cfgNew)).1.ssl_config (Sum.inl 7)
      = some c5cfgNew ∧
    c5cfgNew ≠ c5cfgOld := by decide

/-- C5 amended: `add_connector` on an address that already has a
connector raises `ValueError` and leaves the connector map, the
reconnect-interval map and the planned-connections list unchanged - but
when an SSL config is passed, it has already been stored for the address
before the duplicate check, so that one entry of the Link state is
modified despite the error. -/
theorem C5_duplicate_add_behavior (st : LinkState) (a : Address) (ri : Option Time)
    (sslCfg : Option SSLConfig) (h : hask st.connectors a = true) :
    (Link.add_connector st a ri sslCfg).2.1 = some LinkErr.valueError ∧
    (Link.add_connector st a ri sslCfg).2.2 = none ∧
    (Link.add_connector st a ri sslCfg).1
      = { st with ssl_config := match sslCfg with
                                | none => st.ssl_config
                                | some cfg => setk st.ssl_config (Sum.inl a) cfg } := by
  cases sslCfg with
  | none =>
    unfold Link.add_connector
    dsimp only
    rw [if_pos h]
    exact ⟨rfl, rfl, rfl⟩
  | some cfg =>
    unfold Link.add_connector
    dsimp only
    rw [if_pos h]
    exact ⟨rfl, rfl, rfl⟩

theorem C5_duplicate_add_behavior_witness :
    (Link.add_connector c5state 7 (some 5) (some c5cfgNew)).2.1
      = some LinkErr.valueError ∧
    (Link.add_connector c5state 7 (some 5) (some c5cfgNew)).2.2 = none ∧
    (Link.add_connector c5state 7 (some 5) (some c5cfgNew)).1
      = { c5state with ssl_config := match (some c5cfgNew : Option SSLConfig) with
                                     | none => c5state.ssl_config
                                     | some cfg => setk c5state.ssl_config (Sum.inl 7) cfg } :=
  C5_duplicate_add_behavior c5state 7 (some 5) (some c5cfgNew) (by decide)

/-- The due test `deal_connects` actually applies to a planned entry:
due time elapsed, OR due time more than `2 x interval` in the future
(the stale-entry guard as written in the code). -/
def connectDue (intervals : List (Address × Time)) (now : Time) (p : Time × Address) : Bool :=
  match getk intervals p.2 with
  | none => false
  | some i => decide (p.1 ≤ now) || decide (now + i * 2 < p.1)

/-- The due test in the claim's words: an entry is due exactly when its
due time has elapsed. -/
def specDue (now : Time) (p : Time × Address) : Bool := decide (p.1 ≤ now)

/-- Fold of `_connect` (with the in-progress outcome) over a list of
addresses, in order. -/
def connectAll (now : Time) : LinkState → List Address → LinkState
  | st, [] => st
  | st, a :: rest => connectAll now (Link.connect_ now st a ConnectOutcome.inProgress).1 rest

theorem connect_inProgress_plan (now : Time) (st : LinkState) (a : Address) :
    (Link.connect_ now st a ConnectOutcome.inProgress).1.plannned_connections
      = st.plannned_connections := rfl

theorem connect_inProgress_intervals (now : Time) (st : LinkState) (a : Address) :
    (Link.connect_ now st a ConnectOutcome.inProgress).1.reconnect_intervals
      = st.reconnect_intervals := rfl

theorem connect_inProgress_evs (now : Time) (st : LinkState) (a : Address) :
    (Link.connect_ now st a ConnectOutcome.inProgress).2.1 = ([] : List Event) := rfl

theorem connect_inProgress_err (now : Time) (st : LinkState) (a : Address) :
    (Link.connect_ now st a ConnectOutcome.inProgress).2.2 = (none : Option LinkErr) := rfl

theorem deal_connects_loop_spec (now : Time) (l : List (Time × Address)) :
    ∀ (st : LinkState) (oracle : List ConnectOutcome) (k : Nat),
      (∀ p ∈ l, hask st.reconnect_intervals p.2 = true) →
      (∀ o ∈ oracle, o = ConnectOutcome.inProgress) →
      Link.deal_connects_loop now st l oracle k
        = (connectAll now st
             ((l.takeWhile (connectDue st.reconnect_intervals now)).map (fun p => p.2)),
           [], none,
           k + (l.takeWhile (connectDue st.reconnect_intervals now)).length) := by
  induction l with
  | nil => intro st oracle k _ _; rfl
  | cons p rest ih =>
    intro st oracle k hcov horacle
    obtain ⟨when, a⟩ := p
    have hmem : hask st.reconnect_intervals a = true :=
      hcov (when, a) (List.mem_cons_self _ _)
    obtain ⟨i, hi⟩ : ∃ i, getk st.reconnect_intervals a = some i := by
      rw [hask] at hmem
      cases hgi : getk st.reconnect_intervals a with
      | none => rw [hgi] at hmem; cases hmem
      | some i => exact ⟨i, rfl⟩
    unfold Link.deal_connects_loop
    rw [hi]
    dsimp only
    by_cases hdue : when ≤ now ∨ when > now + i * 2
    · have hdueb : connectDue st.reconnect_intervals now (when, a) = true := by
        unfold connectDue
        rw [hi]
        rcases hdue with h1 | h2
        · simp [h1]
        · simp [h2]
      have hhead : oracle.headD ConnectOutcome.inProgress = ConnectOutcome.inProgress := by
        cases oracle with
        | nil => rfl
        | cons o os => exact horacle o (List.mem_cons_self _ _)
      rw [if_pos hdue, hhead, connect_inProgress_err]
      dsimp only
      have hcov' : ∀ q ∈ rest,
          hask (Link.connect_ now st a ConnectOutcome.inProgress).1.reconnect_intervals q.2
            = true := by
        intro q hq
        rw [connect_inProgress_intervals]
        exact hcov q (List.mem_cons_of_mem _ hq)
      have horacle' : ∀ o ∈ oracle.tail, o = ConnectOutcome.inProgress :=
        fun o ho => horacle o (List.mem_of_mem_tail ho)
      rw [ih (Link.connect_ now st a ConnectOutcome.inProgress).1 oracle.tail (k + 1)
            hcov' horacle']
      rw [connect_inProgress_evs, connect_inProgress_intervals,
          List.takeWhile_cons_of_pos hdueb]
      have harith :
          k + 1 + (rest.takeWhile (connectDue st.reconnect_intervals now)).length
            = k + ((when, a) :: rest.takeWhile (connectDue st.reconnect_intervals now)).length := by
        simp [List.length_cons]
        omega
      rw [List.nil_append]
      dsimp only [List.map, connectAll]
      rw [harith]
    · rw [if_neg hdue]
      have hdueb : ¬ connectDue st.reconnect_intervals now (when, a) = true := by
        unfold connectDue
        rw [hi]
        push_neg at hdue
        simp only [Bool.or_eq_true, decide_eq_true_eq, not_or]
        exact ⟨not_le.mpr hdue.1, not_lt.mpr hdue.2⟩
      rw [List.takeWhile_cons_of_neg hdueb]
      rfl

/-- The Link used for the C1 counterexample: one connector, one planned
entry whose due time lies more than `2 x interval` in the future. -/
def c1state : LinkState :=
  { linkInit 3 with
      connectors := [(0, none)]
      reconnect_intervals := [(0, 3)]
      plannned_connections := [(10, 0)] }

/-- C1 counterexample: at `now = 1` the single planned entry `(10, 0)` is
still in the future, so under the claim's reading of "due" (`when <=
now`, the stale guard only covering entries already overdue) nothing may
be attempted or removed; but `10 > now + interval * 2 = 7`, so the code's
guard fires for this future entry: `deal_connects` attempts a connection
for address 0 (the connector acquires a fresh socket) and removes the
entry. -/
theorem C1_future_entry_attempted_counterexample :
    c1state.plannned_connections.takeWhile (specDue 1) = [] ∧
    c1state.plannned_connections = [(10, 0)] ∧
    (Link.deal_connects 1 c1state []).1.plannned_connections = [] ∧
    getk (Link.deal_connects 1 c1state []).1.connectors 0 = some (some ⟨0, 4, false⟩) ∧
    (Link.deal_connects 1 c1state []).2.2 = none := by decide

/-- C1 amended: when every planned address has an interval on record and
every connect attempt returns in-progress (the normal non-blocking path),
`deal_connects` attempts a connection for, and removes, exactly the
longest prefix of entries satisfying the code's due test: due time
elapsed (`when <= now`) OR due time more than `2 x interval` in the
future (`when > now + interval * 2` - the guard concerns entries too far
in the future, e.g. after a backwards clock jump, not overdue ones);
the scan stops at the first entry with `now < when <= now +
interval * 2`. -/
theorem C1_deal_connects_guarded_scan (now : Time) (st : LinkState)
    (oracle : List ConnectOutcome)
    (hcov : ∀ p ∈ st.plannned_connections, hask st.reconnect_intervals p.2 = true)
    (horacle : ∀ o ∈ oracle, o = ConnectOutcome.inProgress) :
    Link.deal_connects now st oracle
      = (let sel := st.plannned_connections.takeWhile (connectDue st.reconnect_intervals now)
         let st1 := connectAll now st (sel.map (fun p => p.2))
         ({ st1 with plannned_connections := st1.plannned_connections.drop sel.length },
          [], none)) := by
  unfold Link.deal_connects
  rw [deal_connects_loop_spec now st.plannned_connections st oracle 0 hcov horacle]
  dsimp only
  rw [Nat.zero_add]
  by_cases hlen : (st.plannned_connections.takeWhile
      (connectDue st.reconnect_intervals now)).length ≠ 0
  · rw [if_pos hlen]
  · rw [if_neg hlen]
    rw [not_not.mp hlen]
    rfl

/-- The Link used to witness the amended C1: one due entry, one entry
inside the window (scan stops there), intervals on record. -/
def c1wstate : LinkState :=
  { linkInit 3 with
      connectors := [(4, none)]
      reconnect_intervals := [(4, 3)]
      plannned_connections := [(0, 4), (2, 4), (9, 4)] }

theorem C1_deal_connects_guarded_scan_witness :
    Link.deal_connects 1 c1wstate []
      = (let sel := c1wstate.plannned_connections.takeWhile
            (connectDue c1wstate.reconnect_intervals 1)
         let st1 := connectAll 1 c1wstate (sel.map (fun p => p.2))
         ({ st1 with plannned_connections := st1.plannned_connections.drop sel.length },
          [], none)) :=
  C1_deal_connects_guarded_scan 1 c1wstate [] (by decide) (by decide)

/-- SSL config used to drive the C6 failing scenario. -/
def c6cfg : SSLConfig := ⟨some "peer.key", some "peer.crt", 0, 2, none⟩

/-- C6 step 1: `add_connector(addr, ssl_config=cfg)` on a fresh Link. -/
def c6state0 : LinkState := (Link.add_connector (linkInit 3) 7 none (some c6cfg)).1

/-- C6 step 2: the loop runs `deal_connects`; the connect completes at
once and the TLS handshake stalls on `WANT_READ`, leaving the socket
mid-handshake (with a connection id assigned but `on_connect` deferred). -/
def c6state1 : LinkState :=
  (Link.deal_connects 0 c6state0 [ConnectOutcome.connected HSOutcome.wantRead]).1

/-- C6 (code bug): from a reachable state holding one socket whose TLS
handshake is still in progress, `cleanup` raises `AssertionError`:
`handle_close` never removes a socket from `_in_ssl_handshake`, so after
every connector, listener and socket is torn down the set still holds the
closed socket and cleanup's own `assert len(self._in_ssl_handshake) == 0`
fails - every other registry does end empty, as the claim demands. -/
theorem C6_cleanup_assertion_fails :
    (Link.deal_connects 0 c6state0 [ConnectOutcome.connected HSOutcome.wantRead]).2.2
      = none ∧
    c6state1.in_ssl_handshake ≠ [] ∧
    (Link.cleanup 1 c6state1).2.2 = some LinkErr.assertionError ∧
    (Link.cleanup 1 c6state1).1.in_ssl_handshake ≠ [] ∧
    (Link.cleanup 1 c6state1).1.sock_by_fd = [] ∧
    (Link.cleanup 1 c6state1).1.conn_by_sock = [] ∧
    (Link.cleanup 1 c6state1).1.sock_by_conn = [] ∧
    (Link.cleanup 1 c6state1).1.listen_socks = [] ∧
    (Link.cleanup 1 c6state1).1.listen_socks_filenos = [] ∧
    (Link.cleanup 1 c6state1).1.connectors = [] ∧
    (Link.cleanup 1 c6state1).1.socks_addresses = [] ∧
    (Link.cleanup 1 c6state1).1.socks_waiting_to_connect = [] ∧
    (Link.cleanup 1 c6state1).1.plannned_connections = [] ∧
    (Link.cleanup 1 c6state1).1.reconnect_intervals = [] ∧
    (Link.cleanup 1 c6state1).1.ssl_config = [] := by decide
